import Mathlib

/-!
Verification development for the taiwan-handicapped-parking data pipeline.

Shallow embedding conventions:
* Python floats are modelled as rationals (ℚ); the numeric error of binary
  floating point (~1e-16 per op) is far below every bound stated here.
* Python strings are modelled as Lean `String` built from `List Char`
  operations defined below, so that concrete evaluation works.
* pandas DataFrames are modelled as lists of rows; a missing value (NaN /
  None) is the `Cell.missing` constructor.
* Fallible Python code (exceptions) is modelled with `Option` / `Except`.
* External collaborators (network, pyproj, file system, cache) are
  parameters: a page oracle `ℕ → Except Unit _` models `requests.get` of
  one page, and `conv : ℚ → ℚ → ℚ × ℚ` models
  `CoordinateConverter.twd97_to_wgs84` (pyproj).
-/

/-! ## Character and decimal-string helpers (Python str/int rendering) -/

/-- The character for decimal digit `d` (`0 ≤ d ≤ 9`). -/
def digitChar (d : ℕ) : Char := Char.ofNat (48 + d)

/-- Numeric value of a decimal digit character. -/
def charVal (c : Char) : ℕ := c.toNat - 48

/-- Most-significant-first decimal digits of `n`; fuel-driven so that it is
structurally recursive (call with fuel ≥ number of digits). Empty for `n = 0`. -/
def natDigitsAux : ℕ → ℕ → List Char
  | 0, _ => []
  | fuel + 1, n => if n = 0 then [] else natDigitsAux fuel (n / 10) ++ [digitChar (n % 10)]

/-- Decimal rendering of a natural number, as Python `str(int)` renders it. -/
def natChars (n : ℕ) : List Char := if n = 0 then ['0'] else natDigitsAux (n + 1) n

/-- `natChars` packaged as a `String`. -/
def natStr (n : ℕ) : String := String.mk (natChars n)

/-- Zero-padding to width 2, as Python format `{n:02d}`. -/
def pad2Chars (n : ℕ) : List Char := if n < 10 then '0' :: natChars n else natChars n

/-- Parse a list of decimal digit characters into a natural number. -/
def parseNatChars (cs : List Char) : ℕ := cs.foldl (fun a c => 10 * a + charVal c) 0

/-! ## Geocoding: `scripts/utils/geocoding.py` -/

/-- Round-half-to-even to the nearest integer, the rounding used by Python
float formatting (`{x:.2f}`). -/
def roundHalfEven (x : ℚ) : ℤ :=
  if Int.fract x < 1 / 2 then ⌊x⌋
  else if 1 / 2 < Int.fract x then ⌊x⌋ + 1
  else if 2 ∣ ⌊x⌋ then ⌊x⌋ else ⌊x⌋ + 1

/-- The seconds value rounded to centiseconds by the `{seconds:05.2f}` format
(the numeric content of the formatted string). -/
def secondsCenti (s : ℚ) : ℕ := (roundHalfEven (s * 100)).toNat

/-- Python format `{seconds:05.2f}` for the nonnegative seconds value:
zero-padded to width 2 before the decimal point, exactly 2 fractional digits. -/
def formatSecondsChars (s : ℚ) : List Char :=
  pad2Chars (secondsCenti s / 100) ++ '.' :: pad2Chars (secondsCenti s % 100)

/-- `degrees = int(decimal)` of `decimal_to_dms` (`decimal = abs(value)`, so
`int` truncation is the floor). -/
def dmsDegrees (v : ℚ) : ℕ := (⌊|v|⌋).toNat

/-- `minutes_decimal = (decimal - degrees) * 60` of `decimal_to_dms`. -/
def dmsMinutesDecimal (v : ℚ) : ℚ := (|v| - (dmsDegrees v : ℚ)) * 60

/-- `minutes = int(minutes_decimal)` of `decimal_to_dms`. -/
def dmsMinutes (v : ℚ) : ℕ := (⌊dmsMinutesDecimal v⌋).toNat

/-- `seconds = (minutes_decimal - minutes) * 60` of `decimal_to_dms`. -/
def dmsSeconds (v : ℚ) : ℚ := (dmsMinutesDecimal v - (dmsMinutes v : ℚ)) * 60

/-- `decimal_to_dms` of `scripts/utils/geocoding.py`: convert decimal degrees
to a DMS string `{degrees}°{minutes:02d}'{seconds:05.2f}"{direction}` where the
direction is `N`/`S` for latitude and `E`/`W` for longitude by the sign test
`decimal >= 0` done before taking the absolute value. -/
def decimal_to_dms (v : ℚ) (is_latitude : Bool) : String :=
  let direction : Char :=
    if is_latitude then (if 0 ≤ v then 'N' else 'S') else (if 0 ≤ v then 'E' else 'W')
  String.mk (natChars (dmsDegrees v) ++ '°' :: pad2Chars (dmsMinutes v) ++
    '\'' :: formatSecondsChars (dmsSeconds v) ++ '"' :: [direction])

/-- Split a character list on runs of spaces dropping empty pieces, as Python
`str.split()` does on the strings produced in `dms_to_decimal` (accumulator
holds the current token reversed). -/
def splitWSAux : List Char → List Char → List (List Char)
  | [], acc => if acc.isEmpty then [] else [acc.reverse]
  | c :: rest, acc =>
    if c = ' ' then
      (if acc.isEmpty then splitWSAux rest [] else acc.reverse :: splitWSAux rest [])
    else splitWSAux rest (c :: acc)

/-- Python `float()` restricted to the token shapes that occur in
`dms_to_decimal`: an optional minus sign, a digit run, optionally followed by
a dot and another digit run.  `none` models a `ValueError`. -/
def parseUnsignedFloat (cs : List Char) : Option ℚ :=
  let ip := cs.takeWhile Char.isDigit
  let rest := cs.dropWhile Char.isDigit
  if ip.isEmpty then none
  else
    match rest with
    | [] => some (parseNatChars ip : ℚ)
    | '.' :: fp =>
      if fp.isEmpty ∨ ¬ fp.all Char.isDigit then none
      else some ((parseNatChars ip : ℚ) + (parseNatChars fp : ℚ) / 10 ^ fp.length)
    | _ => none

/-- Signed variant of `parseUnsignedFloat`. -/
def parseFloatChars (cs : List Char) : Option ℚ :=
  match cs with
  | '-' :: rest => (parseUnsignedFloat rest).map (fun q => -q)
  | _ => parseUnsignedFloat cs

/-- `dms_to_decimal` of `scripts/utils/geocoding.py`: take the last character
as the direction, replace `°` and `'` by spaces, remove `"`, split, parse up
to three numeric tokens (missing tokens default to 0), combine as
`degrees + minutes/60 + seconds/3600`, and negate for direction `S` or `W`.
`none` models the `IndexError`/`ValueError` the Python code raises on strings
that do not fit this shape. -/
def dms_to_decimal (dms : String) : Option ℚ :=
  match dms.data.getLast? with
  | none => none
  | some direction =>
    let body := dms.data.dropLast
    let cleaned := (body.map (fun c => if c = '°' ∨ c = '\'' then ' ' else c)).filter
      (fun c => ¬ c = '"')
    let parts := splitWSAux cleaned []
    match parts.head? with
    | none => none
    | some p0 =>
      match parseFloatChars p0 with
      | none => none
      | some d =>
        let m? : Option ℚ := match parts[1]? with
          | none => some 0
          | some p => parseFloatChars p
        let s? : Option ℚ := match parts[2]? with
          | none => some 0
          | some p => parseFloatChars p
        match m?, s? with
        | some m, some s =>
          let dec := d + m / 60 + s / 3600
          some (if direction = 'S' ∨ direction = 'W' then -dec else dec)
        | _, _ => none

/-- `validate_coordinates` of `scripts/utils/geocoding.py`. -/
def validate_coordinates (lat lon : ℚ) : Bool :=
  decide (-90 ≤ lat ∧ lat ≤ 90 ∧ -180 ≤ lon ∧ lon ≤ 180)

/-- `is_in_taiwan` of `scripts/utils/geocoding.py`. -/
def is_in_taiwan (lat lon : ℚ) : Bool :=
  decide (21.5 ≤ lat ∧ lat ≤ 25.5 ∧ 119.5 ≤ lon ∧ lon ≤ 122.5)

/-! ## Shared text helpers (Python str methods used by the pipeline) -/

/-- Python `str.strip()` (whitespace trim at both ends). -/
def trimChars (l : List Char) : List Char :=
  ((l.dropWhile Char.isWhitespace).reverse.dropWhile Char.isWhitespace).reverse

/-- Whether `pat` is an initial segment of `l` (used for Python `startswith`
and substring search). -/
def isPrefixList : List Char → List Char → Bool
  | [], _ => true
  | _ :: _, [] => false
  | p :: ps, c :: cs => p = c && isPrefixList ps cs

/-- Python `pat in s` substring containment. -/
def containsSub (pat l : List Char) : Bool := l.tails.any (isPrefixList pat)

/-- Python `s.replace(pat, '')` for a non-empty `pat`: remove all
(left-to-right, non-overlapping) occurrences. Fuel-driven structural
recursion; call with fuel ≥ length of the list. -/
def stripAllSub (pat : List Char) : ℕ → List Char → List Char
  | 0, l => l
  | _ + 1, [] => []
  | fuel + 1, c :: cs =>
    if isPrefixList pat (c :: cs) then stripAllSub pat fuel ((c :: cs).drop pat.length)
    else c :: stripAllSub pat fuel cs

/-- Python `s.replace(pat, '')` on strings (for the `fixed:` mapping
convention; `pat` is always the non-empty literal `"fixed:"`). -/
def removeSub (pat s : String) : String :=
  String.mk (stripAllSub pat.data (s.data.length + 1) s.data)

/-- ASCII lower-casing of one character, modelling Python `str.lower()` on the
ASCII column names that occur in the data sources. -/
def lowerChar (c : Char) : Char :=
  if 'A' ≤ c ∧ c ≤ 'Z' then Char.ofNat (c.toNat + 32) else c

/-- ASCII `str.lower()`. -/
def lowerStr (s : String) : String := String.mk (s.data.map lowerChar)

/-- Join a list of strings with a separator, modelling Python `sep.join`. -/
def joinWith (sep : String) : List String → String
  | [] => ""
  | [x] => x
  | x :: y :: xs => x ++ sep ++ joinWith sep (y :: xs)

/-! ## Data model -/

/-- One cell of a pandas DataFrame: a string, a float, or a missing value
(`NaN` / `None`). -/
inductive Cell where
  | str (s : String)
  | num (q : ℚ)
  | missing
deriving DecidableEq

/-- The text Python `str()` produces for a cell value.  `str(None)` is
`"None"`; the rendering of a float value is modelled only up to a definite
function of the rational (no specified claim depends on stringified numeric
cells). -/
def cellText : Cell → String
  | .str s => s
  | .num q => if q.den = 1 then (if q.num < 0 then "-" ++ natStr q.num.natAbs else natStr q.num.natAbs)
              else natStr q.num.natAbs ++ "/" ++ natStr q.den
  | .missing => "None"

/-- `float(cell)` / numeric extraction: a float cell is itself, a string cell
is parsed (`none` models the `ValueError`), a missing cell has no number. -/
def cellToFloat? : Cell → Option ℚ
  | .num q => some q
  | .str s => parseFloatChars s.data
  | .missing => none

/-- The standard record schema produced by every handler's transform step. -/
structure StdRecord where
  city : String
  area : String
  road : String
  dd_lat : ℚ
  dd_long : ℚ
  dms_lat : String
  dms_long : String
deriving DecidableEq

/-! ## Record validator: `scripts/utils/csv_validator.py` -/

/-- `ParkingLocation.validate_dms_format`: the string must be non-blank, must
contain `°`, `'` and `"`, and must contain (anywhere — the code tests
membership, not the final character) one of `N`, `S`, `E`, `W`. -/
def validate_dms_format (v : String) : Bool :=
  ¬ (trimChars v.data).isEmpty &&
  (v.data.contains '°' && v.data.contains '\'' && v.data.contains '"') &&
  (v.data.contains 'N' || v.data.contains 'S' || v.data.contains 'E' || v.data.contains 'W')

/-- `ParkingLocation.validate_not_empty` on a cell: a required string field
must be a non-blank string (a float or missing value fails Pydantic's type
check). -/
def strFieldOk : Cell → Bool
  | .str s => ¬ (trimChars s.data).isEmpty
  | _ => false

/-- `ParkingLocation.validate_latitude` on a cell: a float within [-90, 90]
and within the Taiwan bounds [21.5, 25.5] (a missing value is `NaN`, which
fails the range check). -/
def latFieldOk : Cell → Bool
  | .num q => decide (-90 ≤ q ∧ q ≤ 90) && decide (21.5 ≤ q ∧ q ≤ 25.5)
  | _ => false

/-- `ParkingLocation.validate_longitude` on a cell. -/
def longFieldOk : Cell → Bool
  | .num q => decide (-180 ≤ q ∧ q ≤ 180) && decide (119.5 ≤ q ∧ q ≤ 122.5)
  | _ => false

/-- `validate_dms_format` on a cell (non-string cells fail the type check). -/
def dmsFieldOk : Cell → Bool
  | .str s => validate_dms_format s
  | _ => false

/-- One row of the output CSV as the validator sees it. -/
structure PRow where
  city : Cell
  area : Cell
  road : Cell
  dd_lat : Cell
  dd_long : Cell
  dms_lat : Cell
  dms_long : Cell
deriving DecidableEq

/-- A DataFrame for validation: its column list plus its rows. -/
structure Frame where
  cols : List String
  rows : List PRow

def requiredColumns : List String :=
  ["city", "area", "road", "dd_lat", "dd_long", "dms_lat", "dms_long"]

/-- Column access on a row (only the required columns are ever read). -/
def getColCell (r : PRow) : String → Cell
  | "city" => r.city
  | "area" => r.area
  | "road" => r.road
  | "dd_lat" => r.dd_lat
  | "dd_long" => r.dd_long
  | "dms_lat" => r.dms_lat
  | "dms_long" => r.dms_long
  | _ => .missing

/-- The fields of a row that fail `ParkingLocation` validation, in field
declaration order (Pydantic collects all per-field errors of a row). -/
def rowErrorFields (r : PRow) : List String :=
  (if strFieldOk r.city then [] else ["city"]) ++
  (if strFieldOk r.area then [] else ["area"]) ++
  (if strFieldOk r.road then [] else ["road"]) ++
  (if latFieldOk r.dd_lat then [] else ["dd_lat"]) ++
  (if longFieldOk r.dd_long then [] else ["dd_long"]) ++
  (if dmsFieldOk r.dms_lat then [] else ["dms_lat"]) ++
  (if dmsFieldOk r.dms_long then [] else ["dms_long"])

/-- `ValidationResult` of `scripts/utils/csv_validator.py`. -/
structure ValidationResult where
  errors : List String
  warnings : List String
  valid_rows : ℕ
  invalid_rows : ℕ
deriving DecidableEq

def emptyResult : ValidationResult := ⟨[], [], 0, 0⟩

/-- `ValidationResult.add_error`: appends the message and increments
`invalid_rows` (it counts error messages, not rows). -/
def add_error (res : ValidationResult) (e : String) : ValidationResult :=
  { res with errors := res.errors ++ [e], invalid_rows := res.invalid_rows + 1 }

/-- `ValidationResult.add_warning`. -/
def add_warning (res : ValidationResult) (w : String) : ValidationResult :=
  { res with warnings := res.warnings ++ [w] }

/-- `ValidationResult.is_valid`. -/
def is_valid (res : ValidationResult) : Bool := res.errors.isEmpty

/-- The duplicate-detection key of `validate_csv`
(city, area, road, dd_lat, dd_long). -/
def dupKey (r : PRow) : Cell × Cell × Cell × Cell × Cell :=
  (r.city, r.area, r.road, r.dd_lat, r.dd_long)

/-- The body of the per-row loop of `validate_csv`: a valid row increments
`valid_rows`; an invalid row adds one aggregated error string listing all
violated fields (which also increments `invalid_rows`). -/
def rowStep (res : ValidationResult) (p : ℕ × PRow) : ValidationResult :=
  let fields := rowErrorFields p.2
  if fields.isEmpty then { res with valid_rows := res.valid_rows + 1 }
  else add_error res ("Row " ++ natStr p.1 ++ ": " ++ joinWith "; " fields)

/-- The body of the per-column missing-value loop of `validate_csv`: a column
with at least one missing value adds one error (incrementing `invalid_rows`
again). -/
def colStep (rows : List PRow) (res : ValidationResult) (col : String) : ValidationResult :=
  let missing := rows.countP (fun r => getColCell r col = .missing)
  if 0 < missing then
    add_error res ("Column " ++ col ++ " has " ++ natStr missing ++ " missing values")
  else res

/-- `validate_csv` of `scripts/utils/csv_validator.py`: missing-columns check
(early return), empty-frame warning (early return), per-row Pydantic
validation (one aggregated error string per invalid row), duplicate warning,
and per-column missing-value errors. -/
def validate_csv (df : Frame) : ValidationResult :=
  let missing_columns := requiredColumns.filter (fun c => ¬ df.cols.contains c)
  if ¬ missing_columns.isEmpty then
    add_error emptyResult ("Missing required columns: " ++ joinWith ", " missing_columns)
  else if df.rows.isEmpty then
    add_warning emptyResult "DataFrame is empty"
  else
    let res := df.rows.enum.foldl rowStep emptyResult
    let dupCount := (df.rows.filter
      (fun r => 1 < df.rows.countP (fun r2 => dupKey r2 = dupKey r))).length
    let res :=
      if 0 < dupCount then
        add_warning (add_warning res ("Found " ++ natStr dupCount ++ " duplicate rows"))
          "Duplicate row indices listed"
      else res
    requiredColumns.foldl (colStep df.rows) res

/-! ## Merge engine: `scripts/data_collection/merger.py` -/

/-- A deduplication-key field name (the configured keys are a subset of the
`StdRecord` columns). -/
inductive MergeField where
  | city | area | road | dd_lat | dd_long | dms_lat | dms_long
deriving DecidableEq

/-- A column value, for key comparison. -/
inductive FVal where
  | s (v : String)
  | q (v : ℚ)
deriving DecidableEq

def getMergeField (r : StdRecord) : MergeField → FVal
  | .city => .s r.city
  | .area => .s r.area
  | .road => .s r.road
  | .dd_lat => .q r.dd_lat
  | .dd_long => .q r.dd_long
  | .dms_lat => .s r.dms_lat
  | .dms_long => .s r.dms_long

/-- The tuple of key-column values `drop_duplicates(subset=keys)` compares. -/
def keyOf (keys : List MergeField) (r : StdRecord) : List FVal :=
  keys.map (getMergeField r)

/-- `DataFrame.drop_duplicates(subset=keys, keep='first')`: keep a row iff its
key tuple has not been seen earlier. -/
def dedupKeep {α κ : Type} [DecidableEq κ] (key : α → κ) : List κ → List α → List α
  | _, [] => []
  | seen, x :: xs =>
    if key x ∈ seen then dedupKeep key seen xs
    else x :: dedupKeep key (key x :: seen) xs

/-- Lexicographic comparison on (city, area, road) used by
`sort_values(['city', 'area', 'road'])`. -/
def recordLe (a b : StdRecord) : Bool :=
  if a.city ≠ b.city then a.city < b.city
  else if a.area ≠ b.area then a.area < b.area
  else ¬ b.road < a.road

/-- The final sort of `collect_and_merge` (the claims below rely only on the
sorted table being a permutation of its input). -/
def sortRecords (l : List StdRecord) : List StdRecord := l.mergeSort recordLe

/-- One configured source at run time: its `enabled` flag and the outcome of
`handler.process()` — a table, or `Except.error` when the handler (loading,
fetch or transform) raised. -/
structure SourceRun where
  enabled : Bool
  outcome : Except Unit (List StdRecord)

/-- The per-source collection loop of `collect_and_merge`: disabled sources
are skipped, exceptions are caught and processing continues, and only
non-empty tables are appended to `all_data`. -/
def collectTables (sources : List SourceRun) : List (List StdRecord) :=
  sources.foldl (fun acc s =>
    if ¬ s.enabled then acc
    else
      match s.outcome with
      | .error _ => acc
      | .ok df => if 0 < df.length then acc ++ [df] else acc) []

/-- Declarative description of `collectTables`: the tables of the enabled
sources whose `process()` returned a non-empty table, in declaration order. -/
def successTables (sources : List SourceRun) : List (List StdRecord) :=
  sources.filterMap (fun s =>
    if s.enabled then
      match s.outcome with
      | .ok df => if df.isEmpty then none else some df
      | .error _ => none
    else none)

/-- `DataMerger.collect_and_merge`: collect, fail with the "no data" error
when nothing was collected, concatenate, deduplicate when keys are
configured (skip otherwise), and sort.  (The code guards the sort with a
column-presence check that always holds here because the schema is uniform.) -/
def collect_and_merge (sources : List SourceRun) (dedup_keys : List MergeField) :
    Except String (List StdRecord) :=
  let all_data := collectTables sources
  if all_data.isEmpty then .error "No data collected from any source"
  else
    let merged := all_data.flatten
    let merged := if ¬ dedup_keys.isEmpty then dedupKeep (keyOf dedup_keys) [] merged else merged
    .ok (sortRecords merged)

/-! ## Handler configuration and field mapping: `base_handler.py` -/

/-- The configuration slice of `BaseDataHandler` that the fetch/transform
steps read. -/
structure HandlerCfg where
  coordinate_system : String
  fields_mapping : List (String × String)
  filter_field : String
  filter_value : String
  filter_pattern : String
  page_size : ℕ

/-- `BaseDataHandler._get_field_value` on a row of cells: a mapping value
with the `fixed:` convention yields the literal (all occurrences of
`fixed:` removed, as `str.replace` does); any other mapping value names a
source field, read with `str(row.get(field, default))`. -/
def getFieldValueCell (mapping : List (String × String)) (row : List (String × Cell))
    (key dflt : String) : String :=
  let mv := ((mapping.lookup key).getD dflt)
  if isPrefixList "fixed:".data mv.data then removeSub "fixed:" mv
  else
    match row.lookup mv with
    | some c => cellText c
    | none => dflt

/-- The `strip()`-and-placeholder normalization both transforms apply to
`area` and `road`: values in `['None', 'nan', '<NA>', 'NaN', '']` collapse to
the empty string. -/
def normalizeText (s : String) : String :=
  let t := String.mk (trimChars s.data)
  if t = "None" ∨ t = "nan" ∨ t = "<NA>" ∨ t = "NaN" ∨ t = "" then "" else t

/-! ## New Taipei handler: `scripts/data_collection/new_taipei_handler.py` -/

/-- A raw fetched row at filter time (CSV cells / JSON values stringified, as
the code does before the containment test). -/
abbrev FetchRow : Type := List (String × String)

/-- One page of a CSV-format response: its columns and rows. -/
structure CsvPage where
  cols : List String
  rows : List FetchRow

/-- The JSON-branch row filter of `NewTaipeiHandler.fetch_data`:
`filter_pattern in str(record.get(filter_field, ''))`. -/
def jsonRowMatches (cfg : HandlerCfg) (r : FetchRow) : Bool :=
  containsSub cfg.filter_pattern.data (((List.lookup cfg.filter_field r).getD "").data)

/-- The CSV-branch per-page filter of `NewTaipeiHandler.fetch_data`: when the
filter field is a column, keep rows whose value contains the pattern
(`na=False` drops rows with a missing value); when the column is absent the
code logs a warning and appends the page unfiltered. -/
def csvPageFiltered (cfg : HandlerCfg) (p : CsvPage) : List FetchRow :=
  if p.cols.contains cfg.filter_field then
    p.rows.filter (fun r =>
      match List.lookup cfg.filter_field r with
      | some v => containsSub cfg.filter_pattern.data v.data
      | none => false)
  else p.rows

/-- The pagination loop of `NewTaipeiHandler.fetch_data`, JSON branch.  The
oracle models `requests.get` + JSON parsing of one page; `Except.error` is a
transport failure (`requests.RequestException`).  Pagination starts at page
0, stops on an empty page, a short page (fewer rows than `page_size`), the
`max_pages = 100` safety cap, or a transport failure — which propagates when
it hits page 0 and otherwise returns the accumulated data.  Fuel is
`100 - page`. -/
def fetchPagesJsonGo (oracle : ℕ → Except Unit (List FetchRow)) (cfg : HandlerCfg) :
    ℕ → ℕ → List FetchRow → Except Unit (List FetchRow)
  | 0, _, acc => .ok acc
  | fuel + 1, page, acc =>
    match oracle page with
    | .error e => if page = 0 then .error e else .ok acc
    | .ok data =>
      if data.isEmpty then .ok acc
      else
        let acc2 := acc ++ data.filter (jsonRowMatches cfg)
        if data.length < cfg.page_size then .ok acc2
        else fetchPagesJsonGo oracle cfg fuel (page + 1) acc2

/-- `NewTaipeiHandler.fetch_data`, JSON branch (cache omitted: the claims
concern the network path). -/
def fetch_data_json (oracle : ℕ → Except Unit (List FetchRow)) (cfg : HandlerCfg) :
    Except Unit (List FetchRow) :=
  fetchPagesJsonGo oracle cfg 100 0 []

/-- The pagination loop of `NewTaipeiHandler.fetch_data`, CSV branch; same
loop skeleton, with the per-page filter of `csvPageFiltered`. -/
def fetchPagesCsvGo (oracle : ℕ → Except Unit CsvPage) (cfg : HandlerCfg) :
    ℕ → ℕ → List FetchRow → Except Unit (List FetchRow)
  | 0, _, acc => .ok acc
  | fuel + 1, page, acc =>
    match oracle page with
    | .error e => if page = 0 then .error e else .ok acc
    | .ok p =>
      if p.rows.isEmpty then .ok acc
      else
        let acc2 := acc ++ csvPageFiltered cfg p
        if p.rows.length < cfg.page_size then .ok acc2
        else fetchPagesCsvGo oracle cfg fuel (page + 1) acc2

/-- `NewTaipeiHandler.fetch_data`, CSV branch. -/
def fetch_data_csv (oracle : ℕ → Except Unit CsvPage) (cfg : HandlerCfg) :
    Except Unit (List FetchRow) :=
  fetchPagesCsvGo oracle cfg 100 0 []

/-- The New Taipei area-code → district-name lookup table
(`NewTaipeiHandler.AREA_CODE_MAPPING`). -/
def newTaipeiAreaCodeMapping : List (String × String) :=
  [("65000010", "板橋區"), ("65000020", "三重區"), ("65000030", "中和區"),
   ("65000040", "永和區"), ("65000050", "新莊區"), ("65000060", "新店區"),
   ("65000070", "樹林區"), ("65000080", "鶯歌區"), ("65000090", "三峽區"),
   ("65000100", "淡水區"), ("65000110", "汐止區"), ("65000120", "瑞芳區"),
   ("65000130", "土城區"), ("65000140", "蘆洲區"), ("65000150", "五股區"),
   ("65000160", "泰山區"), ("65000170", "林口區"), ("65000180", "深坑區"),
   ("65000190", "石碇區"), ("65000200", "坪林區"), ("65000210", "三芝區"),
   ("65000220", "石門區"), ("65000230", "八里區"), ("65000240", "平溪區"),
   ("65000250", "雙溪區"), ("65000260", "貢寮區"), ("65000270", "金山區"),
   ("65000280", "萬里區"), ("65000290", "烏來區")]

/-- The WGS84-branch latitude cell of `NewTaipeiHandler.transform_data`:
`row.get(fields_mapping.get('lat', 'lat'))` (absent key gives `None`, which
`pd.isna` treats like `NaN`). -/
def wgsLatCell (cfg : HandlerCfg) (row : List (String × Cell)) : Cell :=
  (row.lookup ((cfg.fields_mapping.lookup "lat").getD "lat")).getD .missing

/-- The WGS84-branch longitude cell. -/
def wgsLonCell (cfg : HandlerCfg) (row : List (String × Cell)) : Cell :=
  (row.lookup ((cfg.fields_mapping.lookup "lon").getD "lon")).getD .missing

/-- The TWD97-branch X cell (`fields_mapping.get('x', 'X')`). -/
def twdXCell (cfg : HandlerCfg) (row : List (String × Cell)) : Cell :=
  (row.lookup ((cfg.fields_mapping.lookup "x").getD "X")).getD .missing

/-- The TWD97-branch Y cell. -/
def twdYCell (cfg : HandlerCfg) (row : List (String × Cell)) : Cell :=
  (row.lookup ((cfg.fields_mapping.lookup "y").getD "Y")).getD .missing

/-- The coordinate extraction and validation of
`NewTaipeiHandler.transform_data` for one row: missing (`pd.isna`),
non-numeric (`float()` failure) or out-of-range values for the declared
coordinate system make the row a non-fatal skip (`none`); a valid TWD97 pair
is converted with `conv` (= `CoordinateConverter.twd97_to_wgs84`). -/
def newTaipeiCoords? (conv : ℚ → ℚ → ℚ × ℚ) (cfg : HandlerCfg)
    (row : List (String × Cell)) : Option (ℚ × ℚ) :=
  if cfg.coordinate_system = "WGS84" then
    let latc := wgsLatCell cfg row
    let lonc := wgsLonCell cfg row
    if latc = .missing ∨ lonc = .missing then none
    else
      match cellToFloat? latc, cellToFloat? lonc with
      | some lat, some lon =>
        if -90 ≤ lat ∧ lat ≤ 90 ∧ -180 ≤ lon ∧ lon ≤ 180 then some (lat, lon) else none
      | _, _ => none
  else
    let xc := twdXCell cfg row
    let yc := twdYCell cfg row
    if xc = .missing ∨ yc = .missing then none
    else
      match cellToFloat? xc, cellToFloat? yc with
      | some x, some y =>
        if 100000 ≤ x ∧ x ≤ 400000 ∧ 2400000 ≤ y ∧ y ≤ 2900000 then some (conv x y) else none
      | _, _ => none

/-- One row of `NewTaipeiHandler.transform_data`: `none` is a skipped row, a
record is built from the (possibly converted) coordinates, the DMS strings,
and the mapped and normalized text fields, applying the area-code lookup. -/
def newTaipeiTransformRow (conv : ℚ → ℚ → ℚ × ℚ) (cfg : HandlerCfg)
    (row : List (String × Cell)) : Option StdRecord :=
  match newTaipeiCoords? conv cfg row with
  | none => none
  | some (lat, lon) =>
    let city := getFieldValueCell cfg.fields_mapping row "city" "New Taipei City"
    let area := normalizeText (getFieldValueCell cfg.fields_mapping row "area" "")
    let road := normalizeText (getFieldValueCell cfg.fields_mapping row "road" "")
    let area := (newTaipeiAreaCodeMapping.lookup area).getD area
    some { city := city, area := area, road := road, dd_lat := lat, dd_long := lon,
           dms_lat := decimal_to_dms lat true, dms_long := decimal_to_dms lon false }

/-- `NewTaipeiHandler.transform_data` (the per-row `try/except` never fires in
this total model; a skip contributes nothing). -/
def newTaipeiTransform (conv : ℚ → ℚ → ℚ × ℚ) (cfg : HandlerCfg)
    (rows : List (List (String × Cell))) : List StdRecord :=
  rows.filterMap (newTaipeiTransformRow conv cfg)

/-! ## Taipei handler: `scripts/data_collection/taipei_handler.py` -/

/-- A shapefile row: the centroid of its geometry (`none` models a null or
empty geometry) and its attribute table. -/
structure GeoRow where
  geometry : Option (ℚ × ℚ)
  attrs : List (String × Cell)

/-- The CRS detection of `TaipeiHandler.transform_data`: EPSG:4326 is WGS84,
EPSG:3826 is TWD97, anything else (or a missing CRS) falls back to sniffing
the first centroid's numeric ranges, defaulting to TWD97. -/
def taipeiDetectIsWgs84 (crsEpsg : Option ℤ) (sample : ℚ × ℚ) : Bool :=
  match crsEpsg with
  | some 4326 => true
  | some 3826 => false
  | _ =>
    if 100000 ≤ sample.1 ∧ sample.1 ≤ 400000 ∧ 2400000 ≤ sample.2 ∧ sample.2 ≤ 2900000 then false
    else if -180 ≤ sample.1 ∧ sample.1 ≤ 180 ∧ -90 ≤ sample.2 ∧ sample.2 ≤ 90 then true
    else false

/-- One row of `TaipeiHandler.transform_data`: rows with a null/empty geometry
are skipped; otherwise the centroid is taken as (lat, lon) directly (WGS84,
with lat = y and lon = x) or converted with `conv` (TWD97) — the row loop
performs no numeric-range check on the coordinates. -/
def taipeiTransformRow (conv : ℚ → ℚ → ℚ × ℚ) (is_wgs84 : Bool)
    (mapping : List (String × String)) (row : GeoRow) : Option StdRecord :=
  match row.geometry with
  | none => none
  | some (x, y) =>
    let p := if is_wgs84 then (y, x) else conv x y
    let city := getFieldValueCell mapping row.attrs "city" "Taipei City"
    let area := normalizeText (getFieldValueCell mapping row.attrs "area" "")
    let road := normalizeText (getFieldValueCell mapping row.attrs "road" "")
    some { city := city, area := area, road := road, dd_lat := p.1, dd_long := p.2,
           dms_lat := decimal_to_dms p.1 true, dms_long := decimal_to_dms p.2 false }

/-- `TaipeiHandler.transform_data` row loop (`is_wgs84` is the detected
coordinate system). -/
def taipeiTransform (conv : ℚ → ℚ → ℚ × ℚ) (is_wgs84 : Bool)
    (mapping : List (String × String)) (rows : List GeoRow) : List StdRecord :=
  rows.filterMap (taipeiTransformRow conv is_wgs84 mapping)

/-- The filter-field resolution of `TaipeiHandler.fetch_data`: exact column
match, else first case-insensitive match, else a `ValueError` that aborts
this source. -/
def taipeiResolveFilterField (cols : List String) (field : String) : Except String String :=
  if cols.contains field then .ok field
  else
    match cols.find? (fun c => lowerStr c = lowerStr field) with
    | some c => .ok c
    | none => .error "Filter field not found in shapefile"

/-- The filter step of `TaipeiHandler.fetch_data`:
`gdf[gdf[filter_field].astype(str) == str(filter_value)]` on the resolved
field (pandas renders a missing value as the string `"nan"`). -/
def taipeiFetchFilter (cols : List String) (cfg : HandlerCfg) (rows : List GeoRow) :
    Except String (List GeoRow) :=
  match taipeiResolveFilterField cols cfg.filter_field with
  | .error e => .error e
  | .ok f => .ok (rows.filter (fun r =>
      (match r.attrs.lookup f with
       | some c => cellText c
       | none => "nan") = cfg.filter_value))

/-! ## Concrete fixtures used by counterexamples and witnesses -/

/-- A row that is valid except for a missing `dd_lat` value: it triggers both
one per-row validation error and one column-level missing-value error. -/
def c9Row : PRow :=
  { city := .str "Taipei City", area := .str "Daan", road := .str "Main Rd",
    dd_lat := .missing, dd_long := .num 121,
    dms_lat := .str "25°02'23.40\"N", dms_long := .str "121°33'55.44\"E" }

/-- A one-row frame with all required columns present. -/
def c9Frame : Frame := ⟨requiredColumns, [c9Row]⟩

/-- A frame missing every required column (the early-return error path). -/
def c9NoColsFrame : Frame := ⟨[], []⟩

/-- Two records identical on `city` (a dedup key) but different on `road`. -/
def c2rA : StdRecord :=
  { city := "A", area := "", road := "r1", dd_lat := 25, dd_long := 121,
    dms_lat := "25°00'00.00\"N", dms_long := "121°00'00.00\"E" }

def c2rB : StdRecord :=
  { city := "A", area := "", road := "r2", dd_lat := 25, dd_long := 121,
    dms_lat := "25°00'00.00\"N", dms_long := "121°00'00.00\"E" }

/-- Two enabled sources, each yielding one row; the rows share the dedup key. -/
def c2Sources : List SourceRun :=
  [⟨true, .ok [c2rA]⟩, ⟨true, .ok [c2rB]⟩]

/-- One enabled source yielding one row. -/
def c2wSources : List SourceRun := [⟨true, .ok [c2rA]⟩]

/-- One enabled source yielding two rows that share the `city` dedup key. -/
def c6Sources : List SourceRun := [⟨true, .ok [c2rA, c2rB]⟩]

/-- A handler configuration for the paginated source (page size 1 so a
one-row page is a full page). -/
def c8Cfg : HandlerCfg :=
  { coordinate_system := "WGS84", fields_mapping := [], filter_field := "charged",
    filter_value := "", filter_pattern := "身汽", page_size := 1 }

def c8Row : FetchRow := [("charged", "身汽停車位")]

/-- A page oracle whose page 0 succeeds (a full page) and whose page 1 is a
transport failure. -/
def c8Oracle : ℕ → Except Unit (List FetchRow) :=
  fun p => if p = 0 then .ok [c8Row] else .error ()

def c8Pages : ℕ → List FetchRow := fun _ => [c8Row]

/-- An oracle that fails on every page (in particular on page 0). -/
def c8JsonOracleFail : ℕ → Except Unit (List FetchRow) := fun _ => .error ()

def c8CsvOracleFail : ℕ → Except Unit CsvPage := fun _ => .error ()

/-- A one-row CSV page that carries the filter column (a full page for
`c8Cfg`'s page size 1). -/
def c8CsvPage : CsvPage := ⟨["charged"], [c8Row]⟩

/-- A CSV page oracle whose page 0 succeeds (a full page) and whose page 1
is a transport failure. -/
def c8CsvOracle : ℕ → Except Unit CsvPage :=
  fun p => if p = 0 then .ok c8CsvPage else .error ()

def c8CsvPages : ℕ → CsvPage := fun _ => c8CsvPage

/-- A configuration whose filter field is absent from the CSV page below. -/
def c5Cfg : HandlerCfg :=
  { coordinate_system := "WGS84", fields_mapping := [], filter_field := "charged",
    filter_value := "03", filter_pattern := "身汽", page_size := 1000 }

/-- A short CSV page without the configured filter column; its rows do not
match the filter pattern. -/
def c5Page : CsvPage := ⟨["other"], [[("other", "a")], [("other", "b")]]⟩

def c5Oracle : ℕ → Except Unit CsvPage := fun p => if p = 0 then .ok c5Page else .error ()

/-- A WGS84-declared paginated-handler configuration with no field mapping. -/
def c1Cfg : HandlerCfg :=
  { coordinate_system := "WGS84", fields_mapping := [], filter_field := "",
    filter_value := "", filter_pattern := "", page_size := 0 }

/-- The same configuration declared TWD97. -/
def c1CfgTwd : HandlerCfg := { c1Cfg with coordinate_system := "TWD97" }

/-- A shapefile row whose centroid (999, 999) is outside every expected
coordinate range. -/
def c1GeoRow : GeoRow := ⟨some (999, 999), []⟩

/-! ## Rendering and parsing lemmas -/

set_option maxRecDepth 8000 in
theorem natChars_spec : ∀ n, n < 181 →
    parseNatChars (natChars n) = n ∧ (natChars n).all Char.isDigit = true ∧ natChars n ≠ [] := by
  decide

theorem pad2Chars_spec : ∀ n, n < 100 →
    parseNatChars (pad2Chars n) = n ∧ (pad2Chars n).all Char.isDigit = true ∧
      (pad2Chars n).length = 2 ∧ pad2Chars n ≠ [] := by
  decide

theorem roundHalfEven_abs_le (x : ℚ) : |(roundHalfEven x : ℚ) - x| ≤ 1 / 2 := by
  have h0 : 0 ≤ Int.fract x := Int.fract_nonneg x
  have h1 : Int.fract x < 1 := Int.fract_lt_one x
  have hfl : (⌊x⌋ : ℚ) = x - Int.fract x := by
    have := Int.self_sub_fract x
    linarith
  unfold roundHalfEven
  split_ifs with hlt hgt _ <;>
    · rw [abs_le]
      push_cast
      constructor <;> linarith

theorem roundHalfEven_nonneg (x : ℚ) (hx : 0 ≤ x) : 0 ≤ roundHalfEven x := by
  have h : (0 : ℤ) ≤ ⌊x⌋ := Int.floor_nonneg.mpr hx
  unfold roundHalfEven
  split_ifs <;> omega

theorem roundHalfEven_le (x : ℚ) (n : ℕ) (h : x < n) : roundHalfEven x ≤ n := by
  have hf : ⌊x⌋ < (n : ℤ) := by
    rw [Int.floor_lt]
    exact_mod_cast h
  unfold roundHalfEven
  split_ifs <;> omega

theorem takeWhile_append_all (p : Char → Bool) :
    ∀ (A rest : List Char), A.all p = true → (∀ r, rest.head? = some r → p r = false) →
      (A ++ rest).takeWhile p = A ∧ (A ++ rest).dropWhile p = rest := by
  intro A
  induction A with
  | nil =>
    intro rest _ hrest
    cases rest with
    | nil => exact ⟨rfl, rfl⟩
    | cons r t =>
      have hr := hrest r rfl
      simp [List.takeWhile_cons, List.dropWhile_cons, hr]
  | cons a A ih =>
    intro rest hA hrest
    rw [List.all_cons, Bool.and_eq_true] at hA
    obtain ⟨htw, hdw⟩ := ih rest hA.2 hrest
    simp [List.cons_append, List.takeWhile_cons, List.dropWhile_cons, hA.1, htw, hdw]

theorem parseUnsignedFloat_digits (A : List Char) (hA : A.all Char.isDigit = true)
    (hne : A ≠ []) : parseUnsignedFloat A = some (parseNatChars A : ℚ) := by
  obtain ⟨htw, hdw⟩ := takeWhile_append_all Char.isDigit A [] hA (by intro r hr; cases hr)
  rw [List.append_nil] at htw hdw
  have hemp : A.isEmpty = false := by
    cases A with
    | nil => exact absurd rfl hne
    | cons a t => rfl
  unfold parseUnsignedFloat
  simp only [htw, hdw, hemp, Bool.false_eq_true, if_false]

theorem parseUnsignedFloat_frac (A B : List Char) (hA : A.all Char.isDigit = true)
    (hAne : A ≠ []) (hB : B.all Char.isDigit = true) (hBne : B ≠ []) :
    parseUnsignedFloat (A ++ '.' :: B) =
      some ((parseNatChars A : ℚ) + (parseNatChars B : ℚ) / 10 ^ B.length) := by
  obtain ⟨htw, hdw⟩ := takeWhile_append_all Char.isDigit A ('.' :: B) hA
    (by intro r hr; cases hr; decide)
  have hemp : A.isEmpty = false := by
    cases A with
    | nil => exact absurd rfl hAne
    | cons a t => rfl
  have hBemp : B.isEmpty = false := by
    cases B with
    | nil => exact absurd rfl hBne
    | cons a t => rfl
  unfold parseUnsignedFloat
  simp only [htw, hdw, hemp, Bool.false_eq_true, if_false, hBemp, hB, not_true, or_false,
    Bool.true_eq_false]

theorem parseFloatChars_digit_head (c : Char) (cs : List Char) (hc : c.isDigit = true) :
    parseFloatChars (c :: cs) = parseUnsignedFloat (c :: cs) := by
  unfold parseFloatChars
  split
  · next rest heq =>
      rw [List.cons.injEq] at heq
      rw [heq.1] at hc
      exact absurd hc (by decide)
  · rfl

theorem splitWSAux_shift (A : List Char) (hA : ∀ c ∈ A, ¬ c = ' ') :
    ∀ (l acc : List Char), splitWSAux (A ++ l) acc = splitWSAux l (A.reverse ++ acc) := by
  induction A with
  | nil => intro l acc; simp
  | cons a A ih =>
    intro l acc
    have ha : ¬ a = ' ' := hA a (by simp)
    rw [List.cons_append]
    show splitWSAux (a :: (A ++ l)) acc = _
    rw [splitWSAux, if_neg ha, ih (fun c hc => hA c (by simp [hc])) l (a :: acc)]
    simp

theorem reverse_isEmpty_false (A : List Char) (hAne : A ≠ []) : A.reverse.isEmpty = false := by
  cases h : A.reverse with
  | nil => exact absurd (List.reverse_eq_nil_iff.mp h) hAne
  | cons x t => rfl

theorem splitWSAux_single (C : List Char) (hC : ∀ c ∈ C, ¬ c = ' ') (hCne : C ≠ []) :
    splitWSAux C [] = [C] := by
  have h := splitWSAux_shift C hC [] []
  rw [List.append_nil, List.append_nil] at h
  rw [h, splitWSAux, if_neg (by rw [reverse_isEmpty_false C hCne]; exact Bool.false_ne_true),
    List.reverse_reverse]

theorem splitWSAux_three (A B C : List Char) (hA : ∀ c ∈ A, ¬ c = ' ')
    (hB : ∀ c ∈ B, ¬ c = ' ') (hC : ∀ c ∈ C, ¬ c = ' ')
    (hAne : A ≠ []) (hBne : B ≠ []) (hCne : C ≠ []) :
    splitWSAux (A ++ ' ' :: (B ++ ' ' :: C)) [] = [A, B, C] := by
  rw [splitWSAux_shift A hA, List.append_nil]
  rw [splitWSAux, if_pos rfl,
    if_neg (by rw [reverse_isEmpty_false A hAne]; exact Bool.false_ne_true),
    List.reverse_reverse]
  rw [splitWSAux_shift B hB, List.append_nil]
  rw [splitWSAux, if_pos rfl,
    if_neg (by rw [reverse_isEmpty_false B hBne]; exact Bool.false_ne_true),
    List.reverse_reverse]
  rw [splitWSAux_single C hC hCne]

theorem digit_not_special (c : Char) (hc : c.isDigit = true) :
    ((if c = '°' ∨ c = '\'' then ' ' else c) = c) ∧ c ≠ '"' ∧ c ≠ ' ' := by
  refine ⟨?_, ?_, ?_⟩
  · rw [if_neg]
    rintro (h | h) <;> rw [h] at hc <;> exact absurd hc (by decide)
  · intro h
    rw [h] at hc
    exact absurd hc (by decide)
  · intro h
    rw [h] at hc
    exact absurd hc (by decide)

theorem clean_keeps (A : List Char) (h : ∀ c ∈ A, c.isDigit = true ∨ c = '.') :
    (A.map (fun c => if c = '°' ∨ c = '\'' then ' ' else c)).filter (fun c => ¬ c = '"') = A := by
  induction A with
  | nil => rfl
  | cons a A ih =>
    have ha := h a (by simp)
    have hmap : (if a = '°' ∨ a = '\'' then ' ' else a) = a := by
      rcases ha with ha | ha
      · exact (digit_not_special a ha).1
      · rw [ha]; rfl
    have hfil : a ≠ '"' := by
      rcases ha with ha | ha
      · exact (digit_not_special a ha).2.1
      · rw [ha]; decide
    simp only [List.map_cons, hmap, List.filter_cons]
    rw [if_pos (by simp [hfil]), ih (fun c hc => h c (by simp [hc]))]

theorem all_digits_not_space (A : List Char) (hA : A.all Char.isDigit = true) :
    ∀ c ∈ A, ¬ c = ' ' := by
  intro c hc
  exact (digit_not_special c (List.all_eq_true.mp hA c hc)).2.2

theorem digits_dot_not_space (A B : List Char) (hA : A.all Char.isDigit = true)
    (hB : B.all Char.isDigit = true) : ∀ c ∈ A ++ '.' :: B, ¬ c = ' ' := by
  intro c hc
  rw [List.mem_append, List.mem_cons] at hc
  rcases hc with hc | hc | hc
  · exact (digit_not_special c (List.all_eq_true.mp hA c hc)).2.2
  · rw [hc]; decide
  · exact (digit_not_special c (List.all_eq_true.mp hB c hc)).2.2

theorem digits_dot_mem (A B : List Char) (hA : A.all Char.isDigit = true)
    (hB : B.all Char.isDigit = true) :
    ∀ c ∈ A ++ '.' :: B, c.isDigit = true ∨ c = '.' := by
  intro c hc
  rw [List.mem_append, List.mem_cons] at hc
  rcases hc with hc | hc | hc
  · exact Or.inl (List.all_eq_true.mp hA c hc)
  · exact Or.inr hc
  · exact Or.inl (List.all_eq_true.mp hB c hc)

theorem clean_chain (A B C : List Char) (hA : ∀ c ∈ A, c.isDigit = true ∨ c = '.')
    (hB : ∀ c ∈ B, c.isDigit = true ∨ c = '.') (hC : ∀ c ∈ C, c.isDigit = true ∨ c = '.') :
    ((A ++ '°' :: B ++ '\'' :: C ++ ['"']).map
        (fun c => if c = '°' ∨ c = '\'' then ' ' else c)).filter (fun c => ¬ c = '"') =
      A ++ ' ' :: (B ++ ' ' :: C) := by
  simp only [List.map_append, List.filter_append, List.map_cons, List.filter_cons]
  rw [clean_keeps A hA, clean_keeps B hB, clean_keeps C hC]
  show ((A ++ ' ' :: B) ++ ' ' :: C) ++ [] = A ++ ' ' :: (B ++ ' ' :: C)
  simp

theorem nat_div_mod_cast (c : ℕ) :
    ((c / 100 : ℕ) : ℚ) + ((c % 100 : ℕ) : ℚ) / 100 = (c : ℚ) / 100 := by
  have h : (100 : ℚ) * ((c / 100 : ℕ) : ℚ) + ((c % 100 : ℕ) : ℚ) = (c : ℚ) := by
    exact_mod_cast congrArg (Nat.cast : ℕ → ℚ) (Nat.div_add_mod c 100)
  field_simp
  linarith

theorem parseFloatChars_all_digits (A : List Char) (hA : A.all Char.isDigit = true)
    (hne : A ≠ []) : parseFloatChars A = some (parseNatChars A : ℚ) := by
  cases A with
  | nil => exact absurd rfl hne
  | cons a t =>
    have ha : a.isDigit = true := by
      rw [List.all_cons, Bool.and_eq_true] at hA
      exact hA.1
    rw [parseFloatChars_digit_head a t ha]
    exact parseUnsignedFloat_digits _ hA hne

theorem parseFloatChars_frac (A B : List Char) (hA : A.all Char.isDigit = true)
    (hAne : A ≠ []) (hB : B.all Char.isDigit = true) (hBne : B ≠ []) :
    parseFloatChars (A ++ '.' :: B) =
      some ((parseNatChars A : ℚ) + (parseNatChars B : ℚ) / 10 ^ B.length) := by
  cases A with
  | nil => exact absurd rfl hAne
  | cons a t =>
    have ha : a.isDigit = true := by
      rw [List.all_cons, Bool.and_eq_true] at hA
      exact hA.1
    rw [List.cons_append, parseFloatChars_digit_head a (t ++ '.' :: B) ha, ← List.cons_append]
    exact parseUnsignedFloat_frac _ _ hA hAne hB hBne

theorem dms_parse_rendered (D M c : ℕ) (dir : Char) (hD : D < 181) (hM : M < 60)
    (hc : c ≤ 6000) :
    dms_to_decimal (String.mk (natChars D ++ '°' :: pad2Chars M ++ '\'' ::
        (pad2Chars (c / 100) ++ '.' :: pad2Chars (c % 100)) ++ '"' :: [dir])) =
      some (if dir = 'S' ∨ dir = 'W' then -((D : ℚ) + (M : ℚ) / 60 + (c : ℚ) / 100 / 3600)
            else ((D : ℚ) + (M : ℚ) / 60 + (c : ℚ) / 100 / 3600)) := by
  obtain ⟨hDparse, hDdig, hDne⟩ := natChars_spec D hD
  obtain ⟨hMparse, hMdig, hMlen, hMne⟩ := pad2Chars_spec M (by omega)
  obtain ⟨hIparse, hIdig, hIlen, hIne⟩ := pad2Chars_spec (c / 100) (by omega)
  obtain ⟨hFparse, hFdig, hFlen, hFne⟩ := pad2Chars_spec (c % 100) (by omega)
  have hsecsne : pad2Chars (c / 100) ++ '.' :: pad2Chars (c % 100) ≠ [] := by
    cases h : pad2Chars (c / 100) with
    | nil => exact absurd h hIne
    | cons x t => simp [h]
  have hX : natChars D ++ '°' :: pad2Chars M ++ '\'' ::
      (pad2Chars (c / 100) ++ '.' :: pad2Chars (c % 100)) ++ '"' :: [dir] =
      (natChars D ++ '°' :: pad2Chars M ++ '\'' ::
        (pad2Chars (c / 100) ++ '.' :: pad2Chars (c % 100)) ++ ['"']) ++ [dir] := by
    simp
  rw [hX]
  simp only [dms_to_decimal,
    show (String.mk ((natChars D ++ '°' :: pad2Chars M ++ '\'' ::
        (pad2Chars (c / 100) ++ '.' :: pad2Chars (c % 100)) ++ ['"']) ++ [dir])).data =
      (natChars D ++ '°' :: pad2Chars M ++ '\'' ::
        (pad2Chars (c / 100) ++ '.' :: pad2Chars (c % 100)) ++ ['"']) ++ [dir] from rfl,
    List.getLast?_concat, List.dropLast_concat]
  rw [clean_chain (natChars D) (pad2Chars M)
    (pad2Chars (c / 100) ++ '.' :: pad2Chars (c % 100))
    (fun ch hch => Or.inl (List.all_eq_true.mp hDdig ch hch))
    (fun ch hch => Or.inl (List.all_eq_true.mp hMdig ch hch))
    (digits_dot_mem _ _ hIdig hFdig)]
  rw [splitWSAux_three (natChars D) (pad2Chars M)
    (pad2Chars (c / 100) ++ '.' :: pad2Chars (c % 100))
    (all_digits_not_space _ hDdig) (all_digits_not_space _ hMdig)
    (digits_dot_not_space _ _ hIdig hFdig) hDne hMne hsecsne]
  simp only [List.head?_cons, List.getElem?_cons_zero, List.getElem?_cons_succ]
  rw [parseFloatChars_all_digits _ hDdig hDne, parseFloatChars_all_digits _ hMdig hMne,
    parseFloatChars_frac _ _ hIdig hIne hFdig hFne]
  simp only [hDparse, hMparse, hIparse, hFparse, hFlen]
  rw [show ((10 : ℚ) ^ 2) = 100 from by norm_num, nat_div_mod_cast]

theorem dmsDegrees_cast (v : ℚ) : (dmsDegrees v : ℚ) = (⌊|v|⌋ : ℚ) := by
  unfold dmsDegrees
  exact_mod_cast Int.toNat_of_nonneg (Int.floor_nonneg.mpr (abs_nonneg v))

theorem dmsMinutesDecimal_bounds (v : ℚ) :
    0 ≤ dmsMinutesDecimal v ∧ dmsMinutesDecimal v < 60 := by
  unfold dmsMinutesDecimal
  rw [dmsDegrees_cast]
  have h0 := Int.fract_nonneg |v|
  have h1 := Int.fract_lt_one |v|
  rw [Int.fract] at h0 h1
  constructor <;> nlinarith

theorem dmsMinutes_cast (v : ℚ) : (dmsMinutes v : ℚ) = (⌊dmsMinutesDecimal v⌋ : ℚ) := by
  unfold dmsMinutes
  exact_mod_cast Int.toNat_of_nonneg (Int.floor_nonneg.mpr (dmsMinutesDecimal_bounds v).1)

theorem dmsMinutes_lt (v : ℚ) : dmsMinutes v < 60 := by
  have h := (dmsMinutesDecimal_bounds v).2
  have : (dmsMinutes v : ℚ) ≤ dmsMinutesDecimal v := by
    rw [dmsMinutes_cast]
    exact Int.floor_le _
  by_contra hcon
  push_neg at hcon
  have : (60 : ℚ) ≤ (dmsMinutes v : ℚ) := by exact_mod_cast hcon
  linarith

theorem dmsSeconds_bounds (v : ℚ) : 0 ≤ dmsSeconds v ∧ dmsSeconds v < 60 := by
  unfold dmsSeconds
  rw [dmsMinutes_cast]
  have h0 : 0 ≤ Int.fract (dmsMinutesDecimal v) := Int.fract_nonneg _
  have h1 : Int.fract (dmsMinutesDecimal v) < 1 := Int.fract_lt_one _
  rw [Int.fract] at h0 h1
  constructor <;> nlinarith

theorem dms_decomp (v : ℚ) :
    (dmsDegrees v : ℚ) + (dmsMinutes v : ℚ) / 60 + dmsSeconds v / 3600 = |v| := by
  unfold dmsSeconds
  rw [dmsMinutes_cast, dmsDegrees_cast]
  unfold dmsMinutesDecimal
  rw [dmsDegrees_cast]
  ring

theorem dmsDegrees_lt (v : ℚ) (h : |v| ≤ 180) : dmsDegrees v < 181 := by
  unfold dmsDegrees
  have : ⌊|v|⌋ ≤ 180 := by
    have := Int.floor_le_floor (α := ℚ) h
    simpa using this
  omega

theorem secondsCenti_le (v : ℚ) : secondsCenti (dmsSeconds v) ≤ 6000 := by
  unfold secondsCenti
  have h := (dmsSeconds_bounds v).2
  have : roundHalfEven (dmsSeconds v * 100) ≤ (6000 : ℕ) := by
    apply roundHalfEven_le
    push_cast
    nlinarith
  omega

theorem secondsCenti_close (v : ℚ) :
    |(secondsCenti (dmsSeconds v) : ℚ) / 100 - dmsSeconds v| ≤ 1 / 200 := by
  unfold secondsCenti
  have h0 := (dmsSeconds_bounds v).1
  have hnn : 0 ≤ roundHalfEven (dmsSeconds v * 100) :=
    roundHalfEven_nonneg _ (by nlinarith)
  have habs := roundHalfEven_abs_le (dmsSeconds v * 100)
  have hcast : ((roundHalfEven (dmsSeconds v * 100)).toNat : ℚ) =
      ((roundHalfEven (dmsSeconds v * 100) : ℤ) : ℚ) := by
    exact_mod_cast Int.toNat_of_nonneg hnn
  rw [hcast]
  rw [abs_le] at habs ⊢
  constructor <;> [linarith [habs.1]; linarith [habs.2]]

/-- Claim C3: for every decimal-degree value in the valid latitude range
(with `is_latitude = true`) or the valid longitude range (with
`is_latitude = false`), the round trip `dms_to_decimal (decimal_to_dms v)`
differs from `v` by less than `1e-4` degrees. -/
theorem dms_round_trip (v : ℚ) (is_latitude : Bool)
    (h : if is_latitude then -90 ≤ v ∧ v ≤ 90 else -180 ≤ v ∧ v ≤ 180) :
    ∃ r, dms_to_decimal (decimal_to_dms v is_latitude) = some r ∧ |r - v| < 1 / 10000 := by
  have habs : |v| ≤ 180 := by
    rw [abs_le]
    cases is_latitude with
    | false => simpa using h
    | true =>
      simp only [if_pos rfl] at h
      exact ⟨by linarith [h.1], by linarith [h.2]⟩
  have hD := dmsDegrees_lt v habs
  have hM := dmsMinutes_lt v
  have hc := secondsCenti_le v
  have hdecomp := dms_decomp v
  have hclose := secondsCenti_close v
  set c := secondsCenti (dmsSeconds v) with hcdef
  set D := dmsDegrees v with hDdef
  set M := dmsMinutes v with hMdef
  have hrender : decimal_to_dms v is_latitude = String.mk (natChars D ++ '°' :: pad2Chars M ++
      '\'' :: (pad2Chars (c / 100) ++ '.' :: pad2Chars (c % 100)) ++ '"' ::
      [if is_latitude then (if 0 ≤ v then 'N' else 'S') else (if 0 ≤ v then 'E' else 'W')]) := by
    rfl
  rw [hrender, dms_parse_rendered D M c _ hD hM hc]
  refine ⟨_, rfl, ?_⟩
  by_cases hv : 0 ≤ v
  · have hdir : (if (if is_latitude then (if 0 ≤ v then 'N' else 'S')
        else (if 0 ≤ v then 'E' else 'W')) = 'S' ∨
        (if is_latitude then (if 0 ≤ v then 'N' else 'S')
        else (if 0 ≤ v then 'E' else 'W')) = 'W' then True else False) = False := by
      cases is_latitude <;> simp [hv]
    have habsv : |v| = v := abs_of_nonneg hv
    rw [if_neg (by cases is_latitude <;> simp [hv])]
    rw [habsv] at hdecomp
    rw [abs_le] at hclose
    rw [abs_lt]
    constructor <;> nlinarith
  · push_neg at hv
    rw [if_pos (by cases is_latitude <;> simp [not_le.mpr hv])]
    have habsv : |v| = -v := abs_of_neg hv
    rw [habsv] at hdecomp
    rw [abs_le] at hclose
    rw [abs_lt]
    constructor <;> nlinarith

/-- Witness for C3 at the concrete latitude `25.0330`. -/
theorem dms_round_trip_witness :
    (if true then -90 ≤ (25033 / 1000 : ℚ) ∧ (25033 / 1000 : ℚ) ≤ 90
      else -180 ≤ (25033 / 1000 : ℚ) ∧ (25033 / 1000 : ℚ) ≤ 180) ∧
    ∃ r, dms_to_decimal (decimal_to_dms (25033 / 1000 : ℚ) true) = some r ∧
      |r - (25033 / 1000 : ℚ)| < 1 / 10000 := by
  constructor
  · norm_num
  · exact dms_round_trip (25033 / 1000) true (by norm_num)

/-- Claim C7: `decimal_to_dms` returns exactly the string
`{degrees}°{minutes:02d}'{seconds:05.2f}"{direction}` with
`degrees = floor(|v|)`, `minutes = floor((|v| - degrees) * 60)`,
`seconds = ((|v| - degrees) * 60 - minutes) * 60`, direction `N`/`S` for
latitude and `E`/`W` for longitude chosen by `v ≥ 0`; in particular the two
zero inputs give `0°00'00.00"N` and `0°00'00.00"E`. -/
theorem decimal_to_dms_format :
    (∀ (v : ℚ) (is_latitude : Bool),
      decimal_to_dms v is_latitude = String.mk
        (natChars (⌊|v|⌋).toNat ++ '°' :: pad2Chars (⌊(|v| - ((⌊|v|⌋).toNat : ℚ)) * 60⌋).toNat ++
          '\'' :: formatSecondsChars
            (((|v| - ((⌊|v|⌋).toNat : ℚ)) * 60 - ((⌊(|v| - ((⌊|v|⌋).toNat : ℚ)) * 60⌋).toNat : ℚ)) * 60) ++
          '"' :: [if is_latitude then (if 0 ≤ v then 'N' else 'S')
                  else (if 0 ≤ v then 'E' else 'W')])) ∧
    decimal_to_dms 0 true = "0°00'00.00\"N" ∧
    decimal_to_dms 0 false = "0°00'00.00\"E" := by
  refine ⟨fun v is_latitude => rfl, ?_, ?_⟩
  · have h1 : dmsDegrees 0 = 0 := by norm_num [dmsDegrees]
    have h2 : dmsMinutes 0 = 0 := by norm_num [dmsMinutes, dmsMinutesDecimal, dmsDegrees]
    have h3 : dmsSeconds 0 = 0 := by
      norm_num [dmsSeconds, dmsMinutes, dmsMinutesDecimal, dmsDegrees]
    have h4 : secondsCenti 0 = 0 := by norm_num [secondsCenti, roundHalfEven, Int.fract]
    rw [decimal_to_dms, h1, h2, h3]
    simp only [formatSecondsChars, h4]
    decide
  · have h1 : dmsDegrees 0 = 0 := by norm_num [dmsDegrees]
    have h2 : dmsMinutes 0 = 0 := by norm_num [dmsMinutes, dmsMinutesDecimal, dmsDegrees]
    have h3 : dmsSeconds 0 = 0 := by
      norm_num [dmsSeconds, dmsMinutes, dmsMinutesDecimal, dmsDegrees]
    have h4 : secondsCenti 0 = 0 := by norm_num [secondsCenti, roundHalfEven, Int.fract]
    rw [decimal_to_dms, h1, h2, h3]
    simp only [formatSecondsChars, h4]
    decide

/-- Claim C10: there are inputs for which `decimal_to_dms` renders a seconds
field of `60.00` without carrying into the minutes: at
`v = 24 + 59/60 + 59.9999/3600` the output is `24°59'60.00"N`, not
`25°00'00.00"N`, because the 2-decimal seconds format rounds up after the
minutes were already truncated. -/
theorem decimal_to_dms_sixty_seconds :
    decimal_to_dms (24 + 59 / 60 + (599999 / 10000) / 3600) true = "24°59'60.00\"N" ∧
    decimal_to_dms (24 + 59 / 60 + (599999 / 10000) / 3600) true ≠ "25°00'00.00\"N" := by
  have hv : (24 + 59 / 60 + (599999 / 10000) / 3600 : ℚ) = 899999999 / 36000000 := by
    norm_num
  have habs : |(899999999 / 36000000 : ℚ)| = 899999999 / 36000000 := by
    rw [abs_of_nonneg]
    norm_num
  have h1 : dmsDegrees (899999999 / 36000000) = 24 := by
    unfold dmsDegrees
    rw [habs]
    rw [show ⌊(899999999 / 36000000 : ℚ)⌋ = 24 from by rw [Int.floor_eq_iff]; norm_num]
    rfl
  have h2 : dmsMinutes (899999999 / 36000000) = 59 := by
    unfold dmsMinutes dmsMinutesDecimal
    rw [h1, habs]
    rw [show ⌊((899999999 / 36000000 - ((24 : ℕ) : ℚ)) * 60 : ℚ)⌋ = 59 from by
      rw [Int.floor_eq_iff]
      norm_num]
    rfl
  have h3 : dmsSeconds (899999999 / 36000000) = 599999 / 10000 := by
    unfold dmsSeconds dmsMinutesDecimal
    rw [h1, h2, habs]
    norm_num
  have h4 : secondsCenti (599999 / 10000) = 6000 := by
    unfold secondsCenti roundHalfEven
    rw [show ((599999 / 10000 : ℚ) * 100) = 5999 + 99 / 100 from by norm_num]
    rw [show ⌊(5999 + 99 / 100 : ℚ)⌋ = 5999 from by rw [Int.floor_eq_iff]; norm_num]
    rw [Int.fract]
    rw [show ⌊(5999 + 99 / 100 : ℚ)⌋ = 5999 from by rw [Int.floor_eq_iff]; norm_num]
    norm_num
    decide
  constructor
  · rw [hv, decimal_to_dms, h1, h2, h3]
    simp only [formatSecondsChars, h4]
    rw [if_pos (show (0 : ℚ) ≤ 899999999 / 36000000 from by norm_num)]
    decide
  · rw [hv, decimal_to_dms, h1, h2, h3]
    simp only [formatSecondsChars, h4]
    rw [if_pos (show (0 : ℚ) ≤ 899999999 / 36000000 from by norm_num)]
    decide

/-! ## Validator claims -/

/-- Claim C4 (code bug): `validate_dms_format` accepts
`25°01'58.80"Nx` although its last character is not one of N/S/E/W — the
code only tests that a direction letter occurs somewhere in the string,
while its own error message (and the spec) require the string to end with
one.  The first conjunct evaluates the code at the failing input; the others
pin down why the input falsifies the claim. -/
theorem validate_dms_format_accepts_non_terminal_direction :
    validate_dms_format "25°01'58.80\"Nx" = true ∧
    "25°01'58.80\"Nx".data.getLast? = some 'x' ∧
    ('x' = 'N' ∨ 'x' = 'S' ∨ 'x' = 'E' ∨ 'x' = 'W') = False := by
  refine ⟨by decide, by decide, by simp⟩

theorem rowStep_invalid (res : ValidationResult) (p : ℕ × PRow) :
    (rowStep res p).invalid_rows =
      res.invalid_rows + (if (rowErrorFields p.2).isEmpty then 0 else 1) ∧
    (rowStep res p).valid_rows =
      res.valid_rows + (if (rowErrorFields p.2).isEmpty then 1 else 0) := by
  unfold rowStep add_error
  by_cases h : (rowErrorFields p.2).isEmpty = true <;> simp [h]

theorem row_loop_counts (rows : List PRow) : ∀ (k : ℕ) (res : ValidationResult),
    (((rows.enumFrom k).foldl rowStep res).invalid_rows =
      res.invalid_rows + rows.countP (fun r => ¬ (rowErrorFields r).isEmpty)) ∧
    (((rows.enumFrom k).foldl rowStep res).valid_rows =
      res.valid_rows + rows.countP (fun r => (rowErrorFields r).isEmpty)) := by
  induction rows with
  | nil => intro k res; simp [List.countP_nil]
  | cons r rows ih =>
    intro k res
    rw [List.enumFrom_cons, List.foldl_cons]
    obtain ⟨h1, h2⟩ := ih (k + 1) (rowStep res (k, r))
    obtain ⟨g1, g2⟩ := rowStep_invalid res (k, r)
    rw [List.countP_cons, List.countP_cons, h1, h2, g1, g2]
    by_cases h : (rowErrorFields r).isEmpty = true <;> simp [h] <;> omega

theorem colStep_invalid (rows : List PRow) (res : ValidationResult) (col : String) :
    (colStep rows res col).invalid_rows =
      res.invalid_rows +
        (if 0 < rows.countP (fun r => getColCell r col = .missing) then 1 else 0) ∧
    (colStep rows res col).valid_rows = res.valid_rows := by
  unfold colStep add_error
  by_cases h : 0 < rows.countP (fun r => getColCell r col = .missing) <;> simp [h]

theorem col_loop_counts (rows : List PRow) (cols : List String) :
    ∀ (res : ValidationResult),
    ((cols.foldl (colStep rows) res).invalid_rows =
      res.invalid_rows +
        cols.countP (fun col => 0 < rows.countP (fun r => getColCell r col = .missing))) ∧
    ((cols.foldl (colStep rows) res).valid_rows = res.valid_rows) := by
  induction cols with
  | nil => intro res; simp [List.countP_nil]
  | cons c cols ih =>
    intro res
    rw [List.foldl_cons]
    obtain ⟨h1, h2⟩ := ih (colStep rows res c)
    obtain ⟨g1, g2⟩ := colStep_invalid rows res c
    rw [List.countP_cons, h1, h2, g1, g2]
    by_cases h : 0 < rows.countP (fun r => getColCell r c = Cell.missing) <;>
      (simp [h]; try omega)

theorem validate_csv_counts (df : Frame)
    (hcols : (requiredColumns.filter (fun c => ¬ df.cols.contains c)).isEmpty = true)
    (hrows : df.rows.isEmpty = false) :
    ((validate_csv df).invalid_rows =
      df.rows.countP (fun r => ¬ (rowErrorFields r).isEmpty) +
        requiredColumns.countP
          (fun col => 0 < df.rows.countP (fun r => getColCell r col = .missing))) ∧
    ((validate_csv df).valid_rows =
      df.rows.countP (fun r => (rowErrorFields r).isEmpty)) := by
  unfold validate_csv
  rw [if_neg (by rw [hcols]; simp), if_neg (by rw [hrows]; simp)]
  dsimp only
  have henum : df.rows.enum = df.rows.enumFrom 0 := rfl
  rw [henum]
  obtain ⟨h1, h2⟩ := row_loop_counts df.rows 0 emptyResult
  by_cases hdup : 0 < (df.rows.filter
      (fun r => 1 < df.rows.countP (fun r2 => dupKey r2 = dupKey r))).length
  · rw [if_pos hdup]
    obtain ⟨g1, g2⟩ := col_loop_counts df.rows requiredColumns
      (add_warning (add_warning ((df.rows.enumFrom 0).foldl rowStep emptyResult) _) _)
    rw [g1, g2]
    unfold add_warning
    simp only
    rw [h1, h2]
    exact ⟨by simp [emptyResult], by simp [emptyResult]⟩
  · rw [if_neg hdup]
    obtain ⟨g1, g2⟩ := col_loop_counts df.rows requiredColumns
      ((df.rows.enumFrom 0).foldl rowStep emptyResult)
    rw [g1, g2, h1, h2]
    exact ⟨by simp [emptyResult], by simp [emptyResult]⟩

theorem c9Row_error_fields : rowErrorFields c9Row = ["dd_lat"] := by
  have hlong : longFieldOk c9Row.dd_long = true := by
    show longFieldOk (Cell.num 121) = true
    unfold longFieldOk
    norm_num
  unfold rowErrorFields
  rw [hlong]
  decide

/-- Claim C9: `invalid_rows` counts error messages, not rows — every
`add_error` call increments it by one (including the per-column missing-value
errors and the missing-columns error), so on the one-row frame `c9Frame`
(missing `dd_lat` value) `invalid_rows = 2` exceeds the single invalid row,
and `valid_rows + invalid_rows = 2` differs from the row count 1. -/
theorem invalid_rows_counts_messages :
    (∀ (res : ValidationResult) (e : String),
      (add_error res e).invalid_rows = res.invalid_rows + 1 ∧
      (add_error res e).errors.length = res.errors.length + 1) ∧
    (validate_csv c9Frame).invalid_rows = 2 ∧
    c9Frame.rows.countP (fun r => ¬ (rowErrorFields r).isEmpty) = 1 ∧
    (validate_csv c9Frame).valid_rows + (validate_csv c9Frame).invalid_rows = 2 ∧
    c9Frame.rows.length = 1 ∧
    (validate_csv c9NoColsFrame).invalid_rows = 1 := by
  have hcols : (requiredColumns.filter (fun c => ¬ c9Frame.cols.contains c)).isEmpty = true := by
    decide
  have hrows : c9Frame.rows.isEmpty = false := by decide
  obtain ⟨hinv, hval⟩ := validate_csv_counts c9Frame hcols hrows
  have hrowsP : c9Frame.rows.countP (fun r => ¬ (rowErrorFields r).isEmpty) = 1 := by
    show List.countP _ [c9Row] = 1
    rw [List.countP_cons, List.countP_nil, c9Row_error_fields]
    decide
  have hvalP : c9Frame.rows.countP (fun r => (rowErrorFields r).isEmpty) = 0 := by
    show List.countP _ [c9Row] = 0
    rw [List.countP_cons, List.countP_nil, c9Row_error_fields]
    decide
  have hcolsP : requiredColumns.countP
      (fun col => 0 < c9Frame.rows.countP (fun r => getColCell r col = .missing)) = 1 := by
    decide
  refine ⟨fun res e => ⟨by unfold add_error; simp, by unfold add_error; simp⟩, ?_, hrowsP, ?_, by decide, by decide⟩
  · rw [hinv, hrowsP, hcolsP]
  · rw [hinv, hval, hrowsP, hcolsP, hvalP]

/-! ## Merge engine lemmas -/

theorem collectTables_eq (sources : List SourceRun) :
    collectTables sources = successTables sources := by
  unfold collectTables successTables
  suffices h : ∀ acc, sources.foldl (fun acc s =>
      if ¬ s.enabled then acc
      else
        match s.outcome with
        | .error _ => acc
        | .ok df => if 0 < df.length then acc ++ [df] else acc) acc =
      acc ++ sources.filterMap (fun s =>
        if s.enabled then
          match s.outcome with
          | .ok df => if df.isEmpty then none else some df
          | .error _ => none
        else none) by
    have := h []
    simpa using this
  induction sources with
  | nil => intro acc; simp
  | cons s sources ih =>
    intro acc
    rw [List.foldl_cons, List.filterMap_cons, ih]
    by_cases he : s.enabled
    · cases ho : s.outcome with
      | error e => simp [he, ho]
      | ok df =>
        cases df with
        | nil => simp [he, ho]
        | cons r t => simp [he, ho]
    · simp [he]

theorem dedupKeep_subset {α κ : Type} [DecidableEq κ] (key : α → κ) :
    ∀ (l : List α) (seen : List κ) (r : α), r ∈ dedupKeep key seen l → r ∈ l := by
  intro l
  induction l with
  | nil => intro seen r h; exact absurd h (by simp [dedupKeep])
  | cons x xs ih =>
    intro seen r h
    unfold dedupKeep at h
    by_cases hx : key x ∈ seen
    · rw [if_pos hx] at h
      exact List.mem_cons_of_mem x (ih _ r h)
    · rw [if_neg hx] at h
      rcases List.mem_cons.mp h with h | h
      · exact h ▸ List.mem_cons_self x xs
      · exact List.mem_cons_of_mem x (ih _ r h)

theorem dedupKeep_filter {α κ : Type} [DecidableEq κ] (key : α → κ) (k : κ) :
    ∀ (l : List α) (seen : List κ),
      (dedupKeep key seen l).filter (fun r => key r = k) =
        if k ∈ seen then [] else (l.find? (fun r => key r = k)).toList := by
  intro l
  induction l with
  | nil =>
    intro seen
    simp [dedupKeep, List.find?]
  | cons x xs ih =>
    intro seen
    unfold dedupKeep
    by_cases hx : key x ∈ seen
    · rw [if_pos hx, ih]
      by_cases hk : k ∈ seen
      · rw [if_pos hk, if_pos hk]
      · have hxk : (decide (key x = k)) = false := by
          simp only [decide_eq_false_iff_not]
          intro h
          exact hk (h ▸ hx)
        rw [if_neg hk, if_neg hk, List.find?_cons_of_neg _ (by rw [hxk]; exact Bool.false_ne_true)]
    · rw [if_neg hx, List.filter_cons]
      by_cases hxk : key x = k
      · have hkseen : ¬ k ∈ seen := fun h => hx (hxk ▸ h)
        rw [if_pos (by simp [hxk]), ih,
          if_pos (show k ∈ key x :: seen from by rw [hxk]; exact List.mem_cons_self _ _),
          if_neg hkseen, List.find?_cons_of_pos _ (by simp [hxk])]
        rfl
      · rw [if_neg (by simp [hxk]), ih, List.find?_cons_of_neg _ (by simp [hxk])]
        by_cases hk : k ∈ seen
        · rw [if_pos (show k ∈ key x :: seen from List.mem_cons_of_mem _ hk), if_pos hk]
        · rw [if_neg (show ¬ k ∈ key x :: seen from by
            intro h
            rcases List.mem_cons.mp h with h | h
            · exact hxk h.symm
            · exact hk h), if_neg hk]

theorem successTables_mem (sources : List SourceRun) (tbl : List StdRecord) :
    tbl ∈ successTables sources ↔
      ∃ s ∈ sources, s.enabled = true ∧ s.outcome = .ok tbl ∧ tbl ≠ [] := by
  unfold successTables
  rw [List.mem_filterMap]
  constructor
  · rintro ⟨s, hs, hf⟩
    by_cases he : s.enabled
    · rw [if_pos he] at hf
      cases ho : s.outcome with
      | error e => rw [ho] at hf; cases hf
      | ok df =>
        rw [ho] at hf
        dsimp only at hf
        by_cases hdf : df.isEmpty
        · rw [if_pos hdf] at hf; cases hf
        · rw [if_neg hdf] at hf
          refine ⟨s, hs, he, ?_, ?_⟩
          · rw [ho, Option.some.inj hf]
          · intro hnil
            rw [Option.some.inj hf] at hdf
            exact hdf (hnil ▸ rfl)
    · rw [if_neg he] at hf; cases hf
  · rintro ⟨s, hs, he, ho, hne⟩
    refine ⟨s, hs, ?_⟩
    rw [if_pos he, ho]
    dsimp only
    rw [if_neg ?_]
    intro hempty
    exact hne (List.isEmpty_iff.mp hempty)

theorem successTables_ne_nil (sources : List SourceRun) :
    successTables sources ≠ [] ↔
      ∃ s ∈ sources, s.enabled = true ∧ ∃ df, s.outcome = .ok df ∧ df ≠ [] := by
  constructor
  · intro h
    cases hst : successTables sources with
    | nil => exact absurd hst h
    | cons tbl rest =>
      have : tbl ∈ successTables sources := hst ▸ List.mem_cons_self _ _
      obtain ⟨s, hs, he, ho, hne⟩ := (successTables_mem sources tbl).mp this
      exact ⟨s, hs, he, tbl, ho, hne⟩
  · rintro ⟨s, hs, he, df, ho, hne⟩
    intro hnil
    have : df ∈ successTables sources :=
      (successTables_mem sources df).mpr ⟨s, hs, he, ho, hne⟩
    rw [hnil] at this
    cases this

theorem collect_and_merge_ok (sources : List SourceRun) (keys : List MergeField)
    (t : List StdRecord) (h : collect_and_merge sources keys = .ok t) :
    successTables sources ≠ [] ∧
      t = sortRecords (if ¬ keys.isEmpty then
          dedupKeep (keyOf keys) [] (successTables sources).flatten
        else (successTables sources).flatten) := by
  unfold collect_and_merge at h
  rw [collectTables_eq] at h
  by_cases hemp : (successTables sources).isEmpty
  · rw [if_pos hemp] at h
    cases h
  · rw [if_neg hemp] at h
    dsimp only at h
    refine ⟨fun hnil => hemp (by rw [hnil]; rfl), ?_⟩
    cases hk : keys.isEmpty with
    | true =>
      have hklist : keys = [] := List.isEmpty_iff.mp hk
      rw [if_neg (by simp [hklist])] at h
      rw [if_neg (by simp [hklist])]
      exact (Except.ok.inj h).symm
    | false =>
      rw [if_pos (by simp [hk])] at h
      rw [if_pos (by simp [hk])]
      exact (Except.ok.inj h).symm

theorem collect_and_merge_error (sources : List SourceRun) (keys : List MergeField)
    (h : successTables sources ≠ []) :
    ∃ t, collect_and_merge sources keys = .ok t := by
  unfold collect_and_merge
  rw [collectTables_eq]
  rw [if_neg (fun hemp => h (List.isEmpty_iff.mp hemp))]
  exact ⟨_, rfl⟩

theorem collect_and_merge_eval (sources : List SourceRun) (keys : List MergeField)
    (h : successTables sources ≠ []) (hk : ¬ keys.isEmpty) :
    collect_and_merge sources keys =
      .ok (sortRecords (dedupKeep (keyOf keys) [] (successTables sources).flatten)) := by
  unfold collect_and_merge
  rw [collectTables_eq, if_neg (fun hemp => h (List.isEmpty_iff.mp hemp))]
  dsimp only
  rw [if_pos hk]

theorem collect_and_merge_eval_nokeys (sources : List SourceRun)
    (h : successTables sources ≠ []) :
    collect_and_merge sources [] = .ok (sortRecords (successTables sources).flatten) := by
  unfold collect_and_merge
  rw [collectTables_eq, if_neg (fun hemp => h (List.isEmpty_iff.mp hemp))]
  dsimp only
  rw [if_neg (by simp)]

/-- Claim C2 (amended): `collect_and_merge` catches per-source failures and
continues; it returns normally exactly when some enabled source yields a
non-empty table, and then every row of the result comes from a non-failing,
non-empty source — the result equals those rows exactly (as a multiset) when
no dedup keys are configured, while configured keys may additionally drop
key-duplicates (see the counterexample). When no source yields a row it
fails with the "no data" error. -/
theorem collect_and_merge_spec (sources : List SourceRun) (keys : List MergeField) :
    ((∃ t, collect_and_merge sources keys = .ok t) ↔
      ∃ s ∈ sources, s.enabled = true ∧ ∃ df, s.outcome = .ok df ∧ df ≠ []) ∧
    (∀ t, collect_and_merge sources keys = .ok t →
      ((∀ r ∈ t, ∃ s ∈ sources, s.enabled = true ∧ ∃ df, s.outcome = .ok df ∧ r ∈ df) ∧
        (keys = [] → t.Perm (successTables sources).flatten))) := by
  constructor
  · constructor
    · rintro ⟨t, ht⟩
      exact (successTables_ne_nil sources).mp (collect_and_merge_ok sources keys t ht).1
    · intro hex
      exact collect_and_merge_error sources keys ((successTables_ne_nil sources).mpr hex)
  · intro t ht
    obtain ⟨hne, hteq⟩ := collect_and_merge_ok sources keys t ht
    constructor
    · intro r hr
      rw [hteq] at hr
      have hperm := List.mergeSort_perm (if ¬ keys.isEmpty then
        dedupKeep (keyOf keys) [] (successTables sources).flatten
        else (successTables sources).flatten) recordLe
      have hr2 := hperm.mem_iff.mp hr
      have hr3 : r ∈ (successTables sources).flatten := by
        by_cases hk : keys.isEmpty
        · rw [if_neg (by simp [hk])] at hr2
          exact hr2
        · rw [if_pos hk] at hr2
          exact dedupKeep_subset (keyOf keys) _ _ r hr2
      obtain ⟨tbl, htbl, hrtbl⟩ := List.mem_flatten.mp hr3
      obtain ⟨s, hs, he, ho, _⟩ := (successTables_mem sources tbl).mp htbl
      exact ⟨s, hs, he, tbl, ho, hrtbl⟩
    · intro hkeys
      rw [hteq, if_neg (by simp [hkeys])]
      exact List.mergeSort_perm _ _

/-- Counterexample to claim C2 as stated: with dedup key `city`, two
non-failing non-empty sources contribute two rows but the merge result keeps
only one, so the result does not contain exactly the rows of the
non-failing, non-empty sources. -/
theorem collect_and_merge_spec_counterexample :
    (collect_and_merge c2Sources [MergeField.city]).map List.length = .ok 1 ∧
    (successTables c2Sources).flatten = [c2rA, c2rB] ∧
    ¬ (∃ t, collect_and_merge c2Sources [MergeField.city] = .ok t ∧
        t.Perm (successTables c2Sources).flatten) := by
  have hflat : (successTables c2Sources).flatten = [c2rA, c2rB] := by decide
  have h1 := collect_and_merge_eval c2Sources [MergeField.city] (by decide) (by decide)
  rw [hflat] at h1
  rw [show dedupKeep (keyOf [MergeField.city]) [] [c2rA, c2rB] = [c2rA] from by decide] at h1
  have h3 : sortRecords [c2rA] = [c2rA] := List.perm_singleton.mp (List.mergeSort_perm _ _)
  rw [h3] at h1
  refine ⟨by rw [h1]; rfl, hflat, ?_⟩
  rintro ⟨t, ht, hperm⟩
  rw [h1] at ht
  have hteq : t = [c2rA] := (Except.ok.inj ht).symm
  rw [hteq, hflat] at hperm
  have hlen := hperm.length_eq
  simp at hlen

/-- Witness for C2 at a concrete one-source configuration. -/
theorem collect_and_merge_spec_witness :
    (∃ t, collect_and_merge c2wSources [] = .ok t) ∧
    (∀ r ∈ sortRecords [c2rA], ∃ s ∈ c2wSources, s.enabled = true ∧
      ∃ df, s.outcome = .ok df ∧ r ∈ df) ∧
    (sortRecords [c2rA]).Perm (successTables c2wSources).flatten := by
  have heq : collect_and_merge c2wSources [] =
      .ok (sortRecords (successTables c2wSources).flatten) :=
    collect_and_merge_eval_nokeys c2wSources (by decide)
  rw [show (successTables c2wSources).flatten = [c2rA] from by decide] at heq
  have h := collect_and_merge_spec c2wSources []
  exact ⟨⟨_, heq⟩, (h.2 _ heq).1, (h.2 _ heq).2 rfl⟩

/-- Claim C6: with a non-empty dedup key list, for every key value the rows
of the merge result with that key are exactly the first row of the
concatenated per-source table with that key (first occurrence in
source-declaration order wins; later key-duplicates are dropped); with no
key list, deduplication is skipped and all rows are retained. -/
theorem dedup_first_survivor :
    (∀ (sources : List SourceRun) (keys : List MergeField) (t : List StdRecord),
      keys ≠ [] → collect_and_merge sources keys = .ok t →
      ∀ k : List FVal,
        (t.filter (fun r => keyOf keys r = k)).Perm
          (((successTables sources).flatten.find?
            (fun r => keyOf keys r = k)).toList)) ∧
    (∀ (sources : List SourceRun) (t : List StdRecord),
      collect_and_merge sources [] = .ok t → t.Perm (successTables sources).flatten) := by
  constructor
  · intro sources keys t hk ht k
    obtain ⟨hne, hteq⟩ := collect_and_merge_ok sources keys t ht
    rw [hteq, if_pos (by simp [hk])]
    have hperm : (sortRecords (dedupKeep (keyOf keys) []
        (successTables sources).flatten)).Perm
        (dedupKeep (keyOf keys) [] (successTables sources).flatten) :=
      List.mergeSort_perm _ _
    have hfil := hperm.filter (fun r => decide (keyOf keys r = k))
    have h2 := dedupKeep_filter (keyOf keys) k (successTables sources).flatten []
    rw [if_neg (List.not_mem_nil k)] at h2
    exact h2 ▸ hfil
  · intro sources t ht
    obtain ⟨hne, hteq⟩ := collect_and_merge_ok sources [] t ht
    rw [hteq, if_neg (by simp)]
    exact List.mergeSort_perm _ _

/-- Witness for C6 at a concrete configuration: one source with two rows
sharing the `city` key, and the no-key configuration. -/
theorem dedup_first_survivor_witness :
    (((sortRecords [c2rA]).filter
        (fun r => keyOf [MergeField.city] r = [FVal.s "A"])).Perm
      (((successTables c6Sources).flatten.find?
        (fun r => keyOf [MergeField.city] r = [FVal.s "A"])).toList)) ∧
    (sortRecords [c2rA]).Perm (successTables c2wSources).flatten := by
  have hflat6 : (successTables c6Sources).flatten = [c2rA, c2rB] := by decide
  have heq6 : collect_and_merge c6Sources [MergeField.city] = .ok (sortRecords [c2rA]) := by
    have h := collect_and_merge_eval c6Sources [MergeField.city] (by decide) (by decide)
    rw [hflat6] at h
    rw [show dedupKeep (keyOf [MergeField.city]) [] [c2rA, c2rB] = [c2rA] from by decide] at h
    exact h
  have heqw : collect_and_merge c2wSources [] = .ok (sortRecords [c2rA]) := by
    have h := collect_and_merge_eval_nokeys c2wSources (by decide)
    rw [show (successTables c2wSources).flatten = [c2rA] from by decide] at h
    exact h
  exact ⟨(dedup_first_survivor).1 c6Sources [MergeField.city] _ (by simp) heq6 [FVal.s "A"],
    (dedup_first_survivor).2 c2wSources _ heqw⟩

/-! ## Pagination lemmas -/

theorem fetchPagesJsonGo_accumulates (oracle : ℕ → Except Unit (List FetchRow))
    (cfg : HandlerCfg) (pages : ℕ → List FetchRow) (k : ℕ) (e : Unit)
    (hok : ∀ i, i < k → oracle i = .ok (pages i) ∧ pages i ≠ [] ∧
      cfg.page_size ≤ (pages i).length)
    (herr : oracle k = .error e) (hk0 : 0 < k) :
    ∀ (j fuel page : ℕ) (acc : List FetchRow), page + j = k → j ≤ fuel →
      fetchPagesJsonGo oracle cfg fuel page acc =
        .ok (acc ++ ((List.range' page j).map
          (fun i => (pages i).filter (jsonRowMatches cfg))).flatten) := by
  intro j
  induction j with
  | zero =>
    intro fuel page acc hpj hjf
    cases fuel with
    | zero => simp [fetchPagesJsonGo]
    | succ f =>
      have hpk : page = k := by omega
      rw [show fetchPagesJsonGo oracle cfg (f + 1) page acc =
        (match oracle page with
          | .error e => if page = 0 then .error e else .ok acc
          | .ok data =>
            if data.isEmpty then .ok acc
            else
              let acc2 := acc ++ data.filter (jsonRowMatches cfg)
              if data.length < cfg.page_size then .ok acc2
              else fetchPagesJsonGo oracle cfg f (page + 1) acc2) from rfl]
      rw [hpk, herr]
      dsimp only
      rw [if_neg (by omega)]
      simp
  | succ m ih =>
    intro fuel page acc hpj hjf
    cases fuel with
    | zero => omega
    | succ f =>
      have hpk : page < k := by omega
      obtain ⟨ho, hne, hlen⟩ := hok page hpk
      rw [show fetchPagesJsonGo oracle cfg (f + 1) page acc =
        (match oracle page with
          | .error e => if page = 0 then .error e else .ok acc
          | .ok data =>
            if data.isEmpty then .ok acc
            else
              let acc2 := acc ++ data.filter (jsonRowMatches cfg)
              if data.length < cfg.page_size then .ok acc2
              else fetchPagesJsonGo oracle cfg f (page + 1) acc2) from rfl]
      rw [ho]
      dsimp only
      rw [if_neg (by simp [hne]), if_neg (by omega),
        ih f (page + 1) (acc ++ (pages page).filter (jsonRowMatches cfg)) (by omega) (by omega)]
      rw [List.range'_succ]
      simp

theorem fetchPagesCsvGo_accumulates (oracle : ℕ → Except Unit CsvPage)
    (cfg : HandlerCfg) (pages : ℕ → CsvPage) (k : ℕ) (e : Unit)
    (hok : ∀ i, i < k → oracle i = .ok (pages i) ∧ (pages i).rows ≠ [] ∧
      cfg.page_size ≤ (pages i).rows.length)
    (herr : oracle k = .error e) (hk0 : 0 < k) :
    ∀ (j fuel page : ℕ) (acc : List FetchRow), page + j = k → j ≤ fuel →
      fetchPagesCsvGo oracle cfg fuel page acc =
        .ok (acc ++ ((List.range' page j).map
          (fun i => csvPageFiltered cfg (pages i))).flatten) := by
  intro j
  induction j with
  | zero =>
    intro fuel page acc hpj hjf
    cases fuel with
    | zero => simp [fetchPagesCsvGo]
    | succ f =>
      have hpk : page = k := by omega
      rw [show fetchPagesCsvGo oracle cfg (f + 1) page acc =
        (match oracle page with
          | .error e => if page = 0 then .error e else .ok acc
          | .ok p =>
            if p.rows.isEmpty then .ok acc
            else
              let acc2 := acc ++ csvPageFiltered cfg p
              if p.rows.length < cfg.page_size then .ok acc2
              else fetchPagesCsvGo oracle cfg f (page + 1) acc2) from rfl]
      rw [hpk, herr]
      dsimp only
      rw [if_neg (by omega)]
      simp
  | succ m ih =>
    intro fuel page acc hpj hjf
    cases fuel with
    | zero => omega
    | succ f =>
      have hpk : page < k := by omega
      obtain ⟨ho, hne, hlen⟩ := hok page hpk
      rw [show fetchPagesCsvGo oracle cfg (f + 1) page acc =
        (match oracle page with
          | .error e => if page = 0 then .error e else .ok acc
          | .ok p =>
            if p.rows.isEmpty then .ok acc
            else
              let acc2 := acc ++ csvPageFiltered cfg p
              if p.rows.length < cfg.page_size then .ok acc2
              else fetchPagesCsvGo oracle cfg f (page + 1) acc2) from rfl]
      rw [ho]
      dsimp only
      rw [if_neg (by simp [hne]), if_neg (by omega),
        ih f (page + 1) (acc ++ csvPageFiltered cfg (pages page)) (by omega) (by omega)]
      rw [List.range'_succ]
      simp

/-- Claim C8: in the paginated handler's fetch loop (both response formats),
a transport failure on the very first page propagates the error to the
caller, while a transport failure on a later page — after `k` successful
full pages — stops pagination and returns the data accumulated from pages
`0 .. k-1` (partial-success policy), again in both response formats. -/
theorem fetch_transport_failure_policy :
    (∀ (oracle : ℕ → Except Unit (List FetchRow)) (cfg : HandlerCfg) (e : Unit),
      oracle 0 = .error e → fetch_data_json oracle cfg = .error e) ∧
    (∀ (oracle : ℕ → Except Unit CsvPage) (cfg : HandlerCfg) (e : Unit),
      oracle 0 = .error e → fetch_data_csv oracle cfg = .error e) ∧
    (∀ (oracle : ℕ → Except Unit (List FetchRow)) (cfg : HandlerCfg)
      (pages : ℕ → List FetchRow) (k : ℕ) (e : Unit),
      0 < k → k < 100 →
      (∀ i, i < k → oracle i = .ok (pages i) ∧ pages i ≠ [] ∧
        cfg.page_size ≤ (pages i).length) →
      oracle k = .error e →
      fetch_data_json oracle cfg =
        .ok (((List.range k).map (fun i => (pages i).filter (jsonRowMatches cfg))).flatten)) ∧
    (∀ (oracle : ℕ → Except Unit CsvPage) (cfg : HandlerCfg)
      (pages : ℕ → CsvPage) (k : ℕ) (e : Unit),
      0 < k → k < 100 →
      (∀ i, i < k → oracle i = .ok (pages i) ∧ (pages i).rows ≠ [] ∧
        cfg.page_size ≤ (pages i).rows.length) →
      oracle k = .error e →
      fetch_data_csv oracle cfg =
        .ok (((List.range k).map (fun i => csvPageFiltered cfg (pages i))).flatten)) := by
  refine ⟨?_, ?_, ?_, ?_⟩
  · intro oracle cfg e h0
    show fetchPagesJsonGo oracle cfg 100 0 [] = .error e
    rw [show fetchPagesJsonGo oracle cfg 100 0 [] =
      (match oracle 0 with
        | .error e => if (0 : ℕ) = 0 then .error e else .ok ([] : List FetchRow)
        | .ok data =>
          if data.isEmpty then .ok []
          else
            let acc2 := [] ++ data.filter (jsonRowMatches cfg)
            if data.length < cfg.page_size then .ok acc2
            else fetchPagesJsonGo oracle cfg 99 1 acc2) from rfl]
    rw [h0]
    rfl
  · intro oracle cfg e h0
    show fetchPagesCsvGo oracle cfg 100 0 [] = .error e
    rw [show fetchPagesCsvGo oracle cfg 100 0 [] =
      (match oracle 0 with
        | .error e => if (0 : ℕ) = 0 then .error e else .ok ([] : List FetchRow)
        | .ok p =>
          if p.rows.isEmpty then .ok []
          else
            let acc2 := [] ++ csvPageFiltered cfg p
            if p.rows.length < cfg.page_size then .ok acc2
            else fetchPagesCsvGo oracle cfg 99 1 acc2) from rfl]
    rw [h0]
    rfl
  · intro oracle cfg pages k e hk0 hk100 hok herr
    show fetchPagesJsonGo oracle cfg 100 0 [] = _
    rw [fetchPagesJsonGo_accumulates oracle cfg pages k e hok herr hk0 k 100 0 []
      (by omega) (by omega)]
    rw [List.range_eq_range']
    simp
  · intro oracle cfg pages k e hk0 hk100 hok herr
    show fetchPagesCsvGo oracle cfg 100 0 [] = _
    rw [fetchPagesCsvGo_accumulates oracle cfg pages k e hok herr hk0 k 100 0 []
      (by omega) (by omega)]
    rw [List.range_eq_range']
    simp

/-- Witness for C8: a concrete failing-first-page oracle for both formats,
and, for each format, a concrete oracle with one successful full page
followed by a failure. -/
theorem fetch_transport_failure_policy_witness :
    fetch_data_json c8JsonOracleFail c8Cfg = .error () ∧
    fetch_data_csv c8CsvOracleFail c8Cfg = .error () ∧
    fetch_data_json c8Oracle c8Cfg =
      .ok (((List.range 1).map
        (fun i => (c8Pages i).filter (jsonRowMatches c8Cfg))).flatten) ∧
    fetch_data_csv c8CsvOracle c8Cfg =
      .ok (((List.range 1).map (fun i => csvPageFiltered c8Cfg (c8CsvPages i))).flatten) := by
  refine ⟨fetch_transport_failure_policy.1 c8JsonOracleFail c8Cfg () rfl,
    fetch_transport_failure_policy.2.1 c8CsvOracleFail c8Cfg () rfl,
    fetch_transport_failure_policy.2.2.1 c8Oracle c8Cfg c8Pages 1 () (by omega) (by omega)
      ?_ rfl,
    fetch_transport_failure_policy.2.2.2 c8CsvOracle c8Cfg c8CsvPages 1 () (by omega)
      (by omega) ?_ rfl⟩
  · intro i hi
    have hi0 : i = 0 := by omega
    subst hi0
    exact ⟨rfl, by decide, by decide⟩
  · intro i hi
    have hi0 : i = 0 := by omega
    subst hi0
    exact ⟨rfl, by decide, by decide⟩

/-! ## Filter-field resolution claims -/

/-- Claim C5 (amended): only the shapefile handler aborts the source when the
configured filter field is absent with no case-insensitive match — the
paginated handler never raises for a missing filter field: its CSV branch
appends the page unfiltered, and its JSON branch filters against the missing
field's empty default, dropping every row when the pattern is non-empty
(silently empty-filtered). -/
theorem filter_field_missing_behavior :
    (∀ (cols : List String) (field : String),
      (∃ e, taipeiResolveFilterField cols field = .error e) ↔
        (¬ cols.contains field = true ∧ ∀ c ∈ cols, ¬ lowerStr c = lowerStr field)) ∧
    (∀ (cfg : HandlerCfg) (p : CsvPage),
      ¬ p.cols.contains cfg.filter_field = true → csvPageFiltered cfg p = p.rows) ∧
    (∀ (cfg : HandlerCfg) (r : FetchRow),
      cfg.filter_pattern ≠ "" → r.lookup cfg.filter_field = none →
      jsonRowMatches cfg r = false) := by
  refine ⟨?_, ?_, ?_⟩
  · intro cols field
    unfold taipeiResolveFilterField
    constructor
    · rintro ⟨e, he⟩
      by_cases hc : cols.contains field
      · rw [if_pos hc] at he
        cases he
      · rw [if_neg hc] at he
        refine ⟨hc, ?_⟩
        intro c hcmem hlow
        cases hfind : cols.find? (fun c => lowerStr c = lowerStr field) with
        | some c2 => rw [hfind] at he; cases he
        | none =>
          have := List.find?_eq_none.mp hfind c hcmem
          simp [hlow] at this
    · rintro ⟨hc, hrest⟩
      rw [if_neg hc]
      rw [List.find?_eq_none.mpr (fun c hcm => by simp [hrest c hcm])]
      exact ⟨_, rfl⟩
  · intro cfg p h
    unfold csvPageFiltered
    rw [if_neg h]
  · intro cfg r hpat hlook
    unfold jsonRowMatches
    rw [hlook]
    show containsSub cfg.filter_pattern.data [] = false
    have hne : cfg.filter_pattern.data ≠ [] := by
      intro h
      apply hpat
      have hmk : cfg.filter_pattern = String.mk cfg.filter_pattern.data := rfl
      rw [hmk, h]
    unfold containsSub
    cases hp : cfg.filter_pattern.data with
    | nil => exact absurd hp hne
    | cons c cs => rfl

/-- Counterexample to claim C5 as stated: in the paginated handler's CSV
branch, a fetch whose page lacks the configured filter column returns the
page's rows unfiltered — no error is raised even though none of the rows
matches the filter pattern. -/
theorem filter_field_missing_counterexample :
    fetch_data_csv c5Oracle c5Cfg = .ok c5Page.rows ∧
    c5Page.rows.length = 2 ∧
    (c5Page.rows.filter (fun r =>
      match r.lookup c5Cfg.filter_field with
      | some v => containsSub c5Cfg.filter_pattern.data v.data
      | none => false)) = [] ∧
    ¬ c5Page.cols.contains c5Cfg.filter_field = true := by
  refine ⟨rfl, by decide, by decide, by decide⟩

/-- Witness for C5: the shapefile resolver rejects a missing field with no
case-insensitive match, the CSV branch passes a filterless page through, and
the JSON branch drops a row lacking the filter field. -/
theorem filter_field_missing_behavior_witness :
    (∃ e, taipeiResolveFilterField ["other"] "charged" = .error e) ∧
    csvPageFiltered c5Cfg c5Page = c5Page.rows ∧
    jsonRowMatches c5Cfg [] = false := by
  refine ⟨(filter_field_missing_behavior.1 ["other"] "charged").mpr ⟨by decide, by decide⟩,
    filter_field_missing_behavior.2.1 c5Cfg c5Page (by decide),
    filter_field_missing_behavior.2.2 c5Cfg [] (by decide) rfl⟩

/-! ## Transform row-skip claims -/

/-- Claim C1 (amended): in the paginated handler's `transform_data`, a row
whose coordinate cells are missing, non-numeric, or out of the declared
system's range (WGS84 or TWD97) is skipped and contributes no record; the
shapefile handler's `transform_data`, however, skips only rows with a
null/empty geometry and applies no numeric-range check — any row with a
geometry always contributes a record. -/
theorem transform_row_skip_behavior :
    (∀ (conv : ℚ → ℚ → ℚ × ℚ) (cfg : HandlerCfg) (row : List (String × Cell)),
      cfg.coordinate_system = "WGS84" →
      (wgsLatCell cfg row = .missing ∨ wgsLonCell cfg row = .missing ∨
        cellToFloat? (wgsLatCell cfg row) = none ∨ cellToFloat? (wgsLonCell cfg row) = none ∨
        (∀ lat lon, cellToFloat? (wgsLatCell cfg row) = some lat →
          cellToFloat? (wgsLonCell cfg row) = some lon →
          ¬ (-90 ≤ lat ∧ lat ≤ 90 ∧ -180 ≤ lon ∧ lon ≤ 180))) →
      newTaipeiTransformRow conv cfg row = none) ∧
    (∀ (conv : ℚ → ℚ → ℚ × ℚ) (cfg : HandlerCfg) (row : List (String × Cell)),
      ¬ cfg.coordinate_system = "WGS84" →
      (twdXCell cfg row = .missing ∨ twdYCell cfg row = .missing ∨
        cellToFloat? (twdXCell cfg row) = none ∨ cellToFloat? (twdYCell cfg row) = none ∨
        (∀ x y, cellToFloat? (twdXCell cfg row) = some x →
          cellToFloat? (twdYCell cfg row) = some y →
          ¬ (100000 ≤ x ∧ x ≤ 400000 ∧ 2400000 ≤ y ∧ y ≤ 2900000))) →
      newTaipeiTransformRow conv cfg row = none) ∧
    (∀ (conv : ℚ → ℚ → ℚ × ℚ) (is_wgs84 : Bool) (mapping : List (String × String))
      (row : GeoRow) (p : ℚ × ℚ),
      row.geometry = some p → (taipeiTransformRow conv is_wgs84 mapping row).isSome = true) := by
  refine ⟨?_, ?_, ?_⟩
  · intro conv cfg row hw hbad
    unfold newTaipeiTransformRow
    suffices h : newTaipeiCoords? conv cfg row = none by rw [h]
    unfold newTaipeiCoords?
    rw [if_pos hw]
    dsimp only
    by_cases hm : wgsLatCell cfg row = .missing ∨ wgsLonCell cfg row = .missing
    · rw [if_pos hm]
    · rw [if_neg hm]
      rcases hbad with h | h | h | h | h
      · exact absurd (Or.inl h) hm
      · exact absurd (Or.inr h) hm
      · rw [h]
      · rw [h]
        cases cellToFloat? (wgsLatCell cfg row) <;> rfl
      · cases hlat : cellToFloat? (wgsLatCell cfg row) with
        | none => cases cellToFloat? (wgsLonCell cfg row) <;> rfl
        | some lat =>
          cases hlon : cellToFloat? (wgsLonCell cfg row) with
          | none => rfl
          | some lon => simp [h lat lon hlat hlon]
  · intro conv cfg row hw hbad
    unfold newTaipeiTransformRow
    suffices h : newTaipeiCoords? conv cfg row = none by rw [h]
    unfold newTaipeiCoords?
    rw [if_neg hw]
    dsimp only
    by_cases hm : twdXCell cfg row = .missing ∨ twdYCell cfg row = .missing
    · rw [if_pos hm]
    · rw [if_neg hm]
      rcases hbad with h | h | h | h | h
      · exact absurd (Or.inl h) hm
      · exact absurd (Or.inr h) hm
      · rw [h]
      · rw [h]
        cases cellToFloat? (twdXCell cfg row) <;> rfl
      · cases hx : cellToFloat? (twdXCell cfg row) with
        | none => cases cellToFloat? (twdYCell cfg row) <;> rfl
        | some x =>
          cases hy : cellToFloat? (twdYCell cfg row) with
          | none => rfl
          | some y => simp [h x y hx hy]
  · intro conv is_wgs84 mapping row p hg
    obtain ⟨x, y⟩ := p
    unfold taipeiTransformRow
    rw [hg]
    rfl

/-- Counterexample to claim C1 as stated: the shapefile transform keeps a row
whose centroid (999, 999) is outside both the WGS84 latitude range and the
TWD97 range — the resulting table has one record with `dd_lat = 999` instead
of skipping the row. -/
theorem transform_row_skip_counterexample :
    (taipeiTransform (fun _ _ => (0, 0)) true [] [c1GeoRow]).map StdRecord.dd_lat = [999] ∧
    ¬ (-90 ≤ (999 : ℚ) ∧ (999 : ℚ) ≤ 90) ∧
    ¬ (100000 ≤ (999 : ℚ) ∧ (999 : ℚ) ≤ 400000) := by
  refine ⟨rfl, by norm_num, by norm_num⟩

/-- Witness for C1: a WGS84 row and a TWD97 row with missing coordinate
cells are skipped by the paginated transform, while the shapefile transform
keeps the out-of-range row. -/
theorem transform_row_skip_behavior_witness :
    newTaipeiTransformRow (fun _ _ => (0, 0)) c1Cfg [] = none ∧
    newTaipeiTransformRow (fun _ _ => (0, 0)) c1CfgTwd [] = none ∧
    (taipeiTransformRow (fun _ _ => (0, 0)) true [] c1GeoRow).isSome = true := by
  refine ⟨transform_row_skip_behavior.1 _ c1Cfg [] rfl (Or.inl rfl),
    transform_row_skip_behavior.2.1 _ c1CfgTwd [] (by decide) (Or.inl rfl),
    transform_row_skip_behavior.2.2 _ true [] c1GeoRow (999, 999) rfl⟩
